/-
  Spec2Proof.lean — a verification development for the AutoMix engine core.

  The C++ sources of the engine (similarity model, playlist generator,
  transition planner, crossfader, scheduler, deck) are shallowly embedded
  below: C++ float arithmetic is modelled by exact real arithmetic over ℝ,
  std::string by String, std::vector by List, integer types by ℤ/ℕ.
  Implementation-defined pieces (the std::discrete_distribution draw, the
  float→size_t cast of a negative value) are abstracted into explicitly
  quantified parameters, so every theorem below holds for all of their
  possible behaviours.
-/
import Mathlib

namespace AutoMix

/-! ### Camelot key math — src/core/utils.h

These functions use only integer and string operations, so they are embedded
computably. -/

/-- Leading decimal digits of a character list. -/
def takeDigits (cs : List Char) : List Char := cs.takeWhile Char.isDigit

/-- Value of a digit string (most significant first). -/
def digitsToNat (ds : List Char) : ℕ :=
  ds.foldl (fun acc c => 10 * acc + (c.toNat - 48)) 0

/-- Model of std::stoi applied to a character sequence: skip leading
whitespace, accept an optional sign and then at least one decimal digit;
none models the std::invalid_argument (no digit) and std::out_of_range
(overflow past int range) exceptions, which the caller turns into 0. -/
def stoiModel (cs : List Char) : Option ℤ :=
  let cs := cs.dropWhile Char.isWhitespace
  match cs with
  | '-' :: rest =>
      let ds := takeDigits rest
      if ds = [] then none
      else if (digitsToNat ds : ℤ) > 2147483648 then none
      else some (-(digitsToNat ds : ℤ))
  | '+' :: rest =>
      let ds := takeDigits rest
      if ds = [] then none
      else if (digitsToNat ds : ℤ) > 2147483647 then none
      else some (digitsToNat ds : ℤ)
  | other =>
      let ds := takeDigits other
      if ds = [] then none
      else if (digitsToNat ds : ℤ) > 2147483647 then none
      else some (digitsToNat ds : ℤ)

/-- utils::parse_camelot_number: stoi of the key minus its final character;
0 for the empty key or when stoi throws. -/
def parse_camelot_number (key : String) : ℤ :=
  if key.data = [] then 0
  else
    match stoiModel key.data.dropLast with
    | some n => n
    | none => 0

/-- utils::parse_camelot_mode: the final character of the key, or 'A' when
the key is empty. -/
def parse_camelot_mode (key : String) : Char :=
  if key.data = [] then 'A' else key.data.getLastD 'A'

/-- utils::camelot_distance. -/
def camelot_distance (key1 key2 : String) : ℤ :=
  if key1.data = [] ∨ key2.data = [] then 0
  else
    let num1 := parse_camelot_number key1
    let num2 := parse_camelot_number key2
    let mode1 := parse_camelot_mode key1
    let mode2 := parse_camelot_mode key2
    if num1 = 0 ∨ num2 = 0 then 0
    else
      let diff := |num1 - num2|
      let wheel_dist := min diff (12 - diff)
      if mode1 = mode2 then wheel_dist
      else if num1 = num2 then 0
      else wheel_dist + 1

/-- utils::keys_compatible: Camelot distance at most 1. -/
def keys_compatible (key1 key2 : String) : Bool :=
  camelot_distance key1 key2 ≤ 1

/-- The string form of a well-formed Camelot key, wheel number then mode. -/
def mkCamelotKey (n : ℕ) (m : Char) : String :=
  toString n ++ String.singleton m

/-- The circular wheel distance the spec describes. -/
def camelotWheelDist (n1 n2 : ℕ) : ℤ :=
  min |(n1 : ℤ) - (n2 : ℤ)| (12 - |(n1 : ℤ) - (n2 : ℤ)|)

/-! ### Data model — include/automix/types.h

float fields are modelled by ℝ, std::vector by List, std::string by String,
int/int64_t by ℤ.  Field defaults mirror the C++ member initialisers. -/

structure TrackInfo where
  id : ℤ := 0
  path : String := ""
  bpm : ℝ := 0
  beats : List ℝ := []
  key : String := ""
  mfcc : List ℝ := []
  chroma : List ℝ := []
  energy_curve : List ℝ := []
  duration : ℝ := 0
  analyzed_at : ℤ := 0
  file_modified_at : ℤ := 0

instance : Inhabited TrackInfo := ⟨{}⟩

structure SimilarityWeights where
  bpm : ℝ := 1
  key : ℝ := 1
  mfcc : ℝ := 0.5
  energy : ℝ := 0.3
  chroma : ℝ := 0.4
  duration : ℝ := 0.2

/-- SimilarityWeights::defaults(). -/
def SimilarityWeights.defaults : SimilarityWeights := {}

inductive EnergyArc where
  | None
  | Ascending
  | Peak
  | Descending
  | Wave
deriving DecidableEq

structure PlaylistRules where
  bpm_tolerance : ℝ := 0
  allow_key_change : Bool := true
  max_key_distance : ℤ := 0
  min_energy_match : ℝ := 0
  style_filter : List String := []
  allow_cross_style : Bool := true
  weights : SimilarityWeights := {}
  energy_arc : EnergyArc := EnergyArc.None
  bpm_step_limit : ℝ := 0
  prefer_bpm_progression : Bool := false
  random_seed : ℕ := 0

structure TransitionConfig where
  crossfade_beats : ℝ := 16
  use_eq_swap : Bool := false
  stretch_limit : ℝ := 0.06
  min_transition_seconds : ℝ := 4
  max_transition_seconds : ℝ := 32

structure TransitionPoint where
  time_seconds : ℝ := 0
  beat_index : ℤ := 0
  energy : ℝ := 0

structure EQTransitionHint where
  use_eq_swap : Bool := false
  low_cut_start : ℝ := 0
  low_cut_end : ℝ := 0.5
  low_restore_start : ℝ := 0.5
  low_restore_end : ℝ := 1

structure TransitionPlan where
  from_track_id : ℤ := 0
  to_track_id : ℤ := 0
  out_point : TransitionPoint := {}
  in_point : TransitionPoint := {}
  bpm_stretch_ratio : ℝ := 1
  pitch_shift_semitones : ℤ := 0
  crossfade_duration : ℝ := 0
  eq_hint : EQTransitionHint := {}

structure PlaylistEntry where
  track_id : ℤ := 0
  transition_to_next : Option TransitionPlan := none

instance : Inhabited PlaylistEntry := ⟨{}⟩

structure Playlist where
  entries : List PlaylistEntry := []

/-! ### Real-valued utilities — src/core/utils.h

From here on the C++ float arithmetic is modelled by exact arithmetic on ℝ,
so the definitions are noncomputable; comparisons use classical
decidability. -/

open Classical

noncomputable section

/-- utils::clamp. -/
def clamp (value min_val max_val : ℝ) : ℝ := max min_val (min max_val value)

/-- utils::lerp. -/
def lerp (a b t : ℝ) : ℝ := a + t * (b - a)

/-- utils::cosine_distance. -/
def cosine_distance (a b : List ℝ) : ℝ :=
  if a.length ≠ b.length ∨ a = [] then 1
  else
    let dot := ∑ i ∈ Finset.range a.length, a.getD i 0 * b.getD i 0
    let norm_a := ∑ i ∈ Finset.range a.length, a.getD i 0 * a.getD i 0
    let norm_b := ∑ i ∈ Finset.range a.length, b.getD i 0 * b.getD i 0
    if norm_a = 0 ∨ norm_b = 0 then 1
    else 1 - clamp (dot / (Real.sqrt norm_a * Real.sqrt norm_b)) (-1) 1

/-- utils::bpm_distance, tolerant of half- and double-time. -/
def bpm_distance (bpm1 bpm2 : ℝ) : ℝ :=
  if bpm1 ≤ 0 ∨ bpm2 ≤ 0 then 0
  else
    let ratio := bpm1 / bpm2
    min |1 - ratio| (min |2 - ratio| |0.5 - ratio|)

/-- utils::calculate_stretch_ratio. The two ifs are sequential in the
source: the halving happens first and the doubling tests its result. -/
def calculate_stretch_ratio (target_bpm source_bpm : ℝ) : ℝ :=
  if source_bpm ≤ 0 ∨ target_bpm ≤ 0 then 1
  else
    let ratio := target_bpm / source_bpm
    if |1 - ratio| < 0.01 then 1
    else
      let ratio1 := if ratio > 1.5 then ratio / 2 else ratio
      let ratio2 := if ratio1 < 0.67 then ratio1 * 2 else ratio1
      ratio2

/-! ### Similarity — src/matcher/similarity.cpp -/

/-- The resampling lambda inside SimilarityCalculator::energy_distance. -/
def resample (curve : List ℝ) (len : ℕ) : List ℝ :=
  if curve.length ≤ 1 then
    List.replicate len (if curve = [] then 0 else curve.getD 0 0)
  else
    (List.range len).map fun (i : ℕ) =>
      let src_idx : ℝ := (i : ℝ) * ((curve.length : ℝ) - 1) / ((len : ℝ) - 1)
      let idx0 : ℕ := (⌊src_idx⌋).toNat
      let idx1 : ℕ := min (idx0 + 1) (curve.length - 1)
      let frac : ℝ := src_idx - (idx0 : ℝ)
      curve.getD idx0 0 * (1 - frac) + curve.getD idx1 0 * frac

/-- Per-segment contribution inside
SimilarityCalculator::segment_energy_distance: 0.7·|Δmean| + 0.3·|Δσ|. -/
def segmentDiff (e1 e2 : List ℝ) (start stop : ℕ) : ℝ :=
  let count : ℝ := ((stop - start : ℕ) : ℝ)
  let sum1 := ∑ i ∈ Finset.Ico start stop, e1.getD i 0
  let sum2 := ∑ i ∈ Finset.Ico start stop, e2.getD i 0
  let sq1 := ∑ i ∈ Finset.Ico start stop, e1.getD i 0 * e1.getD i 0
  let sq2 := ∑ i ∈ Finset.Ico start stop, e2.getD i 0 * e2.getD i 0
  let mean1 := sum1 / count
  let mean2 := sum2 / count
  let var1 := sq1 / count - mean1 * mean1
  let var2 := sq2 / count - mean2 * mean2
  let mean_diff := |mean1 - mean2|
  let var_diff := |Real.sqrt (max 0 var1) - Real.sqrt (max 0 var2)|
  0.7 * mean_diff + 0.3 * var_diff

/-- SimilarityCalculator::segment_energy_distance.  The source loop breaks at
the first segment whose start passes the end of the curve; since the starts
are increasing this is the same as keeping exactly the segments whose start
is in range. -/
def segment_energy_distance (e1 e2 : List ℝ) (segments : ℕ) : ℝ :=
  if e1.length ≠ e2.length ∨ e1 = [] ∨ segments = 0 then 0
  else
    let len := e1.length
    let seg_len0 := len / segments
    let seg_len := if seg_len0 = 0 then 1 else seg_len0
    let live := (Finset.range segments).filter fun s => s * seg_len < len
    let total_diff := ∑ s ∈ live,
      segmentDiff e1 e2 (s * seg_len)
        (if s = segments - 1 then len else (s + 1) * seg_len)
    let actual_segments := live.card
    if actual_segments > 0 then
      clamp (total_diff / (actual_segments : ℝ)) 0 1
    else 0

/-- SimilarityCalculator::energy_distance. -/
def energy_distance (energy1 energy2 : List ℝ) : ℝ :=
  if energy1 = [] ∨ energy2 = [] then 0
  else
    let target_len : ℕ := 100
    let e1 := resample energy1 target_len
    let e2 := resample energy2 target_len
    let mean1 := (∑ i ∈ Finset.range target_len, e1.getD i 0) / (target_len : ℝ)
    let mean2 := (∑ i ∈ Finset.range target_len, e2.getD i 0) / (target_len : ℝ)
    let numerator := ∑ i ∈ Finset.range target_len,
      (e1.getD i 0 - mean1) * (e2.getD i 0 - mean2)
    let var1 := ∑ i ∈ Finset.range target_len,
      (e1.getD i 0 - mean1) * (e1.getD i 0 - mean1)
    let var2 := ∑ i ∈ Finset.range target_len,
      (e2.getD i 0 - mean2) * (e2.getD i 0 - mean2)
    let denominator := Real.sqrt (var1 * var2)
    let correlation := if denominator > 1e-10 then numerator / denominator else 0
    let global_distance := (1 - correlation) / 2
    let seg_distance := segment_energy_distance e1 e2 5
    0.6 * global_distance + 0.4 * seg_distance

/-- SimilarityCalculator::duration_distance. -/
def duration_distance (dur1 dur2 : ℝ) : ℝ :=
  if dur1 ≤ 0 ∨ dur2 ≤ 0 then 0
  else
    let ratio := max dur1 dur2 / min dur1 dur2
    clamp (1 - 1 / ratio) 0 1

/-- SimilarityCalculator::key_distance: Camelot distance normalised by 6. -/
def key_distance (key1 key2 : String) : ℝ :=
  ((camelot_distance key1 key2 : ℤ) : ℝ) / 6

/-- SimilarityCalculator::mfcc_distance. -/
def mfcc_distance (mfcc1 mfcc2 : List ℝ) : ℝ := cosine_distance mfcc1 mfcc2

/-- SimilarityCalculator::chroma_distance. -/
def chroma_distance (chroma1 chroma2 : List ℝ) : ℝ := cosine_distance chroma1 chroma2

/-- SimilarityCalculator::distance: six-dimensional weighted sum, divided by
the total weight of the dimensions that contributed. -/
def distance (w : SimilarityWeights) (a b : TrackInfo) : ℝ :=
  let useBpm := w.bpm > 0 ∧ a.bpm > 0 ∧ b.bpm > 0
  let useKey := w.key > 0 ∧ a.key ≠ "" ∧ b.key ≠ ""
  let useMfcc := w.mfcc > 0 ∧ a.mfcc ≠ [] ∧ b.mfcc ≠ []
  let useEnergy := w.energy > 0 ∧ a.energy_curve ≠ [] ∧ b.energy_curve ≠ []
  let useChroma := w.chroma > 0 ∧ a.chroma ≠ [] ∧ b.chroma ≠ []
  let useDuration := w.duration > 0 ∧ a.duration > 0 ∧ b.duration > 0
  let d := (if useBpm then w.bpm * bpm_distance a.bpm b.bpm else 0)
    + (if useKey then w.key * key_distance a.key b.key else 0)
    + (if useMfcc then w.mfcc * mfcc_distance a.mfcc b.mfcc else 0)
    + (if useEnergy then w.energy * energy_distance a.energy_curve b.energy_curve else 0)
    + (if useChroma then w.chroma * chroma_distance a.chroma b.chroma else 0)
    + (if useDuration then w.duration * duration_distance a.duration b.duration else 0)
  let total_weight := (if useBpm then w.bpm else 0)
    + (if useKey then w.key else 0)
    + (if useMfcc then w.mfcc else 0)
    + (if useEnergy then w.energy else 0)
    + (if useChroma then w.chroma else 0)
    + (if useDuration then w.duration else 0)
  if total_weight > 0 then d / total_weight else 0

/-- SimilarityCalculator::similarity = 1 / (1 + distance). -/
def similarity (w : SimilarityWeights) (a b : TrackInfo) : ℝ :=
  1 / (1 + distance w a b)

/-- The final min_energy_match gate of SimilarityCalculator::are_compatible. -/
def energyGate (a b : TrackInfo) (rules : PlaylistRules) : Bool :=
  if rules.min_energy_match > 0 ∧ a.energy_curve ≠ [] ∧ b.energy_curve ≠ []
      ∧ 1 - energy_distance a.energy_curve b.energy_curve < rules.min_energy_match
  then false else true

/-- SimilarityCalculator::are_compatible. -/
def are_compatible (a b : TrackInfo) (rules : PlaylistRules) : Bool :=
  if rules.bpm_tolerance > 0 ∧ a.bpm > 0 ∧ b.bpm > 0
      ∧ bpm_distance a.bpm b.bpm > rules.bpm_tolerance then false
  else if ¬rules.allow_key_change ∧ a.key ≠ "" ∧ b.key ≠ "" then
    (if camelot_distance a.key b.key > 0 then false else energyGate a b rules)
  else if rules.max_key_distance > 0 ∧ a.key ≠ "" ∧ b.key ≠ "" then
    (if camelot_distance a.key b.key > rules.max_key_distance then false
     else energyGate a b rules)
  else energyGate a b rules

/-! ### Transition point selection — src/matcher/transition_points.{h,cpp} -/

/-- TransitionPointFinder::find_closest_beat.  std::lower_bound finds the
first beat not less than the given time. -/
def find_closest_beat (beats : List ℝ) (time : ℝ) : ℤ :=
  if beats = [] then -1
  else
    match beats.findIdx? (fun x => decide (time ≤ x)) with
    | none => (beats.length : ℤ) - 1
    | some 0 => 0
    | some (i + 1) =>
        if |beats.getD (i + 1) 0 - time| < |beats.getD i 0 - time| then
          (i : ℤ) + 1
        else (i : ℤ)

/-- TransitionPointFinder::get_energy_at: linear interpolation on the
normalised time grid of the energy curve. -/
def get_energy_at (energy_curve : List ℝ) (time duration : ℝ) : ℝ :=
  if energy_curve = [] ∨ duration ≤ 0 then 0.5
  else
    let normalized_time := clamp (time / duration) 0 1
    let index_f := normalized_time * ((energy_curve.length : ℝ) - 1)
    let index : ℕ := (⌊index_f⌋).toNat
    if index ≥ energy_curve.length - 1 then energy_curve.getLastD 0
    else
      let frac := index_f - (index : ℝ)
      energy_curve.getD index 0 * (1 - frac) + energy_curve.getD (index + 1) 0 * frac

/-- TransitionPointFinder::get_energy_trend. -/
def get_energy_trend (energy_curve : List ℝ) (time duration : ℝ) : ℝ :=
  if energy_curve = [] ∨ duration ≤ 0 then 0
  else
    let dt : ℝ := 1
    let e_before := get_energy_at energy_curve (max 0 (time - dt)) duration
    let e_after := get_energy_at energy_curve (min duration (time + dt)) duration
    clamp (e_after - e_before) (-1) 1

/-- TransitionPointFinder::find_phrase_boundaries: every
bars_per_phrase·4-th beat. -/
def find_phrase_boundaries (beats : List ℝ) (bars_per_phrase : ℤ) : List ℝ :=
  if beats.length < 4 ∨ bars_per_phrase ≤ 0 then []
  else
    let beats_per_phrase := (bars_per_phrase * 4).toNat
    ((List.range beats.length).filter fun i => i % beats_per_phrase = 0).map
      fun i => beats.getD i 0

/-- TransitionPointFinder::phrase_alignment_score: distance to the nearest
phrase boundary, normalised by 2 s, clamped to [0, 1]; 1 with no
boundaries. -/
def phrase_alignment_score (time : ℝ) (phrase_boundaries : List ℝ) : ℝ :=
  match phrase_boundaries.map (fun boundary => |time - boundary|) with
  | [] => 1
  | d :: ds => clamp (ds.foldl min d / 2) 0 1

/-- TransitionPointFinder::score_out_candidate (lower is better). -/
def score_out_candidate (t energy energy_trend phrase_alignment default_time duration : ℝ) : ℝ :=
  0.35 * energy + 0.30 * phrase_alignment
    + 0.15 * (if duration > 0 then |t - default_time| / duration else 0)
    + 0.20 * clamp ((energy_trend + 1) / 2) 0 1

/-- TransitionPointFinder::score_in_candidate (lower is better). -/
def score_in_candidate (energy energy_trend phrase_alignment : ℝ) : ℝ :=
  0.35 * energy + 0.35 * phrase_alignment
    + 0.30 * clamp ((-energy_trend + 1) / 2) 0 1

/-- std::numeric_limits of float, max(): the best-score sentinel. -/
def FLT_MAX : ℝ := 340282346638528859811704183484516925440

/-- The merged, sorted, deduplicated 8-bar and 16-bar phrase boundaries
built identically inside find_out_point and find_in_point. -/
def mergedPhrases (beats : List ℝ) : List ℝ :=
  ((find_phrase_boundaries beats 8 ++ find_phrase_boundaries beats 16).mergeSort
    fun x y => decide (x ≤ y)).dedup

/-- The candidate snap / window-check / rescore step shared by the two
search loops: snap to the nearest beat, drop the candidate if the snapped
time leaves the window, otherwise score it and keep the minimum. -/
def scanStep (track : TrackInfo) (all_phrases : List ℝ)
    (search_start search_end : ℝ) (score : ℝ → ℝ → ℝ → ℝ → ℝ)
    (best : ℝ × ℝ) (t0 : ℝ) : ℝ × ℝ :=
  let beat_idx := find_closest_beat track.beats t0
  let t := if 0 ≤ beat_idx ∧ beat_idx < (track.beats.length : ℤ) then
      track.beats.getD beat_idx.toNat 0
    else t0
  if t < search_start ∨ t > search_end then best
  else
    let energy := get_energy_at track.energy_curve t track.duration
    let trend := get_energy_trend track.energy_curve t track.duration
    let phrase_align := phrase_alignment_score t all_phrases
    let sc := score t energy trend phrase_align
    if sc < best.2 then (t, sc) else best

/-- The 40 uniform samples plus in-window phrase boundaries both searches
scan. -/
def scanCandidates (all_phrases : List ℝ) (search_start search_end : ℝ) : List ℝ :=
  ((List.range 40).map fun (i : ℕ) =>
    search_start + (search_end - search_start) * (i : ℝ) / 39)
  ++ all_phrases.filter fun pb => decide (search_start ≤ pb ∧ pb ≤ search_end)

/-- TransitionPointFinder::find_out_point. -/
def find_out_point (track : TrackInfo) (config : TransitionConfig) : TransitionPoint :=
  if track.duration ≤ 0 then {}
  else
    let default_out_time := max 0 (track.duration - 16)
    let search_start := max 0 (track.duration - config.max_transition_seconds)
    let search_end := max 0 (track.duration - config.min_transition_seconds)
    if search_start ≥ search_end then
      { time_seconds := track.duration * 0.7
        beat_index := find_closest_beat track.beats (track.duration * 0.7)
        energy := get_energy_at track.energy_curve (track.duration * 0.7) track.duration }
    else
      let all_phrases := mergedPhrases track.beats
      let best := (scanCandidates all_phrases search_start search_end).foldl
        (scanStep track all_phrases search_start search_end fun t energy trend pa =>
          score_out_candidate t energy trend pa default_out_time track.duration)
        (default_out_time, FLT_MAX)
      { time_seconds := best.1
        beat_index := find_closest_beat track.beats best.1
        energy := get_energy_at track.energy_curve best.1 track.duration }

/-- TransitionPointFinder::find_in_point. -/
def find_in_point (track : TrackInfo) (config : TransitionConfig) : TransitionPoint :=
  if track.duration ≤ 0 then {}
  else
    let search_start := config.min_transition_seconds
    let search_end := min track.duration config.max_transition_seconds
    if search_start ≥ search_end then
      { time_seconds := 0
        beat_index := 0
        energy := get_energy_at track.energy_curve 0 track.duration }
    else
      let all_phrases := mergedPhrases track.beats
      let best := (scanCandidates all_phrases search_start search_end).foldl
        (scanStep track all_phrases search_start search_end fun _ energy trend pa =>
          score_in_candidate energy trend pa)
        (search_start, FLT_MAX)
      { time_seconds := best.1
        beat_index := find_closest_beat track.beats best.1
        energy := get_energy_at track.energy_curve best.1 track.duration }

/-- TransitionPointFinder::calculate_crossfade_duration. -/
def calculate_crossfade_duration (bpm : ℝ) (config : TransitionConfig) : ℝ :=
  if bpm ≤ 0 then 8
  else
    let beat_duration := 60 / bpm
    let duration := beat_duration * config.crossfade_beats
    clamp duration config.min_transition_seconds config.max_transition_seconds

/-- The camelot_to_semitone lambda inside create_plan.  The C++ truncating
% followed by + 12 and a final % 12 lands in [0, 12), which coincides with
the mathematical mod used here. -/
def camelot_to_semitone (key : String) : ℤ :=
  let num := parse_camelot_number key
  let mode := parse_camelot_mode key
  if num = 0 then 0
  else
    let semi := ((num - 5) * 7 % 12 + 12) % 12
    if mode = 'B' ∨ mode = 'b' then (semi + 3) % 12 else semi

/-- TransitionPointFinder::create_plan. -/
def create_plan (from_track to_track : TrackInfo) (config : TransitionConfig) : TransitionPlan :=
  let out_point := find_out_point from_track config
  let in_point := find_in_point to_track config
  let bpm_stretch_ratio :=
    if from_track.bpm > 0 ∧ to_track.bpm > 0 then
      let r := calculate_stretch_ratio from_track.bpm to_track.bpm
      if |1 - r| > config.stretch_limit then 1 else r
    else 1
  let pitch_shift_semitones :=
    if from_track.key ≠ "" ∧ to_track.key ≠ "" then
      let key_dist := camelot_distance from_track.key to_track.key
      if key_dist > 0 ∧ key_dist ≤ 2 then
        let semi1 := camelot_to_semitone from_track.key
        let semi2 := camelot_to_semitone to_track.key
        let diff := (semi1 - semi2 + 12) % 12
        let shift := if diff ≤ 6 then diff else diff - 12
        if |shift| ≤ 2 ∧ shift ≠ 0 then shift else 0
      else 0
    else 0
  let eq_hint : EQTransitionHint :=
    if config.use_eq_swap then
      { use_eq_swap := true
        low_cut_start := 0
        low_cut_end := if out_point.energy > 0.7 then 0.4 else 0.5
        low_restore_start := if in_point.energy < 0.3 then 0.6 else 0.5
        low_restore_end := 1 }
    else {}
  let avg_bpm :=
    if from_track.bpm > 0 ∧ to_track.bpm > 0 then (from_track.bpm + to_track.bpm) / 2
    else 120
  { from_track_id := from_track.id
    to_track_id := to_track.id
    out_point := out_point
    in_point := in_point
    bpm_stretch_ratio := bpm_stretch_ratio
    pitch_shift_semitones := pitch_shift_semitones
    crossfade_duration := calculate_crossfade_duration avg_bpm config
    eq_hint := eq_hint }

/-! ### Playlist generator — src/matcher/playlist.cpp

The generator draws from a std::mt19937 through a std::discrete_distribution
whose algorithm the C++ standard leaves implementation-defined.  The pair is
abstracted as an RNGModel: seed reseeds the engine, draw consumes the engine
state and yields the drawn index for a distribution over n exponential
weights.  Every theorem about the generator is quantified over all RNGModel
instances, so it holds for every conforming implementation. -/

structure RNGModel (σ : Type) where
  seed : ℕ → σ
  draw : σ → ℕ → ℕ × σ

/-- PlaylistGenerator::target_energy_for_progress. -/
def target_energy_for_progress (arc : EnergyArc) (progress : ℝ) : ℝ :=
  let progress := clamp progress 0 1
  match arc with
  | EnergyArc.Ascending => 0.2 + 0.7 * progress
  | EnergyArc.Peak =>
      if progress < 0.6 then 0.3 + 0.7 * (progress / 0.6)
      else 1 - 0.6 * ((progress - 0.6) / 0.4)
  | EnergyArc.Descending => 0.9 - 0.7 * progress
  | EnergyArc.Wave => 0.5 + 0.3 * Real.sin (progress * 4 * 3.14159265)
  | EnergyArc.None => 0.5

/-- PlaylistGenerator::track_average_energy. -/
def track_average_energy (track : TrackInfo) : ℝ :=
  if track.energy_curve = [] then 0.5
  else track.energy_curve.sum / (track.energy_curve.length : ℝ)

/-- PlaylistGenerator::score_candidate (target_count is unused by the
source body as well). -/
def score_candidate (w : SimilarityWeights) (current candidate : TrackInfo)
    (rules : PlaylistRules) (progress : ℝ) (recent_tracks : List TrackInfo)
    (_target_count : ℤ) : ℝ :=
  let sim_score := similarity w current candidate
  let energy_arc_score :=
    if rules.energy_arc ≠ EnergyArc.None then
      let target_energy := target_energy_for_progress rules.energy_arc progress
      let track_energy := track_average_energy candidate
      1 - clamp |target_energy - track_energy| 0 1
    else 1
  let bpm_prog_score :=
    if rules.prefer_bpm_progression ∧ current.bpm > 0 ∧ candidate.bpm > 0 then
      1 / (1 + bpm_distance current.bpm candidate.bpm * 20)
    else 1
  let variety_score :=
    if recent_tracks ≠ [] then
      let total := (recent_tracks.map fun recent => distance w candidate recent).sum
      let avg := total / (recent_tracks.length : ℝ)
      clamp (avg * 2) 0 1
    else 1
  0.35 * sim_score + 0.25 * energy_arc_score + 0.20 * bpm_prog_score
    + 0.20 * variety_score

/-- The compatibility filter at the top of PlaylistGenerator::select_next:
are_compatible plus the bpm_step_limit check. -/
def compatibleFilter (current : TrackInfo)
    (available : List TrackInfo) (rules : PlaylistRules) : List TrackInfo :=
  available.filter fun track =>
    are_compatible current track rules
      && !(decide (rules.bpm_step_limit > 0 ∧ current.bpm > 0 ∧ track.bpm > 0
          ∧ bpm_distance current.bpm track.bpm > rules.bpm_step_limit / 100))

/-- Scoring of the compatible candidates and the descending sort
(std::sort over a strict greater-than comparator; sort order is
deterministic for the embedded sort as it is for a fixed C++
implementation). -/
def scoredSorted (w : SimilarityWeights) (current : TrackInfo)
    (rules : PlaylistRules) (progress : ℝ) (recent_tracks : List TrackInfo)
    (target_count : ℤ) (compatible : List TrackInfo) : List (TrackInfo × ℝ) :=
  (compatible.map fun candidate =>
    (candidate, score_candidate w current candidate rules progress recent_tracks target_count)
  ).mergeSort fun x y => decide (x.2 ≥ y.2)

/-- PlaylistGenerator::select_next.  The draw of the distribution over
pick_from exponential weights lies in [0, pick_from); min pins the
abstracted draw into that range. -/
def select_next {σ : Type} (R : RNGModel σ) (w : SimilarityWeights)
    (current : TrackInfo) (available : List TrackInfo) (rules : PlaylistRules)
    (progress : ℝ) (recent_tracks : List TrackInfo) (target_count : ℤ)
    (s : σ) : Option TrackInfo × σ :=
  if available = [] then (none, s)
  else if compatibleFilter current available rules = [] then (none, s)
  else
    let sorted := scoredSorted w current rules progress recent_tracks target_count
      (compatibleFilter current available rules)
    let pick_from := min 5 sorted.length
    let drawn := R.draw s pick_from
    let pick_idx := min drawn.1 (pick_from - 1)
    (some (sorted.getD pick_idx default).1, drawn.2)

/-- Updating playlist.entries.back().transition_to_next.  The generator
state below keeps the entries in reverse order, so the most recent entry is
the head. -/
def setHeadTransition (rev_entries : List PlaylistEntry) (plan : TransitionPlan) :
    List PlaylistEntry :=
  match rev_entries with
  | [] => []
  | e :: rest => { e with transition_to_next := some plan } :: rest

/-- The relaxed-rules fallback built inside the generate loop. -/
def relaxRules (rules : PlaylistRules) : PlaylistRules :=
  { rules with
    bpm_tolerance := 0
    max_key_distance := 12
    allow_key_change := true
    min_energy_match := 0
    bpm_step_limit := 0 }

/-- The select_next call followed by the relaxed retry of the generate
loop. -/
def selectWithRetry {σ : Type} (R : RNGModel σ) (w : SimilarityWeights)
    (current : TrackInfo) (available : List TrackInfo) (rules : PlaylistRules)
    (progress : ℝ) (recent_tracks : List TrackInfo) (target_count : ℤ)
    (s : σ) : Option TrackInfo × σ :=
  match select_next R w current available rules progress recent_tracks target_count s with
  | (some t, s1) => (some t, s1)
  | (none, s1) =>
      select_next R w current available (relaxRules rules) progress recent_tracks
        target_count s1

/-- The while loop of PlaylistGenerator::generate.  entries grow by exactly
one per iteration and the loop guard needs entries < count, so fuel = count
makes the recursion terminate at exactly the source loop's exit. -/
def genLoop {σ : Type} (R : RNGModel σ) (w : SimilarityWeights)
    (rules : PlaylistRules) (config : TransitionConfig) (count : ℤ) :
    ℕ → List PlaylistEntry → List ℤ → List TrackInfo → TrackInfo →
      List TrackInfo → σ → List PlaylistEntry
  | 0, rev_entries, _, _, _, _, _ => rev_entries
  | fuel + 1, rev_entries, used_ids, available, current, recent_tracks, s =>
    if (rev_entries.length : ℤ) < count ∧ available ≠ [] then
      match selectWithRetry R w current available rules
        ((rev_entries.length : ℝ) / (count : ℝ)) recent_tracks count s with
      | (none, _) => rev_entries
      | (some next, s2) =>
          genLoop R w rules config count fuel
            ({ track_id := next.id, transition_to_next := none } ::
              setHeadTransition rev_entries (create_plan current next config))
            (next.id :: used_ids)
            (available.filter fun t => decide (t.id ∉ next.id :: used_ids))
            next
            (if (recent_tracks ++ [next]).length > 5 then (recent_tracks ++ [next]).tail
             else recent_tracks ++ [next])
            s2
    else rev_entries

/-- PlaylistGenerator::generate.  rng is the engine state the generator
happens to hold when generate is called; a non-zero rules.random_seed
replaces it by a reseeded state. -/
def generate {σ : Type} (R : RNGModel σ) (rng : σ) (seed : TrackInfo)
    (candidates : List TrackInfo) (count : ℤ) (rules : PlaylistRules)
    (config : TransitionConfig) : Playlist :=
  let s0 := if rules.random_seed ≠ 0 then R.seed rules.random_seed else rng
  let seed_entry : PlaylistEntry := { track_id := seed.id }
  let available := candidates.filter fun t => decide (t.id ≠ seed.id)
  { entries :=
      (genLoop R rules.weights rules config count count.toNat [seed_entry]
        [seed.id] available seed [seed] s0).reverse }

/-- The per-edge link invariant of a playlist: entry x carries a transition
whose from-id is x's track and whose to-id is the next entry y's track. -/
def entryLinked (x y : PlaylistEntry) : Prop :=
  ∃ p, x.transition_to_next = some p
    ∧ p.from_track_id = x.track_id ∧ p.to_track_id = y.track_id

/-! ### Crossfader — src/mixer/crossfader.{h,cpp} -/

inductive CurveType where
  | Linear
  | EqualPower
  | EQSwap
  | HardCut
deriving DecidableEq

structure MixParams where
  volume_a : ℝ := 1
  volume_b : ℝ := 0
  eq_low_a : ℝ := 0
  eq_mid_a : ℝ := 0
  eq_high_a : ℝ := 0
  eq_low_b : ℝ := 0
  eq_mid_b : ℝ := 0
  eq_high_b : ℝ := 0

structure Crossfader where
  position : ℝ := -1
  curve : CurveType := CurveType.EqualPower
  automating : Bool := false
  auto_start_pos : ℝ := 0
  auto_end_pos : ℝ := 0
  auto_total_frames : ℤ := 0
  auto_current_frame : ℤ := 0

/-- Crossfader::set_position. -/
def Crossfader.set_position (c : Crossfader) (position : ℝ) : Crossfader :=
  { c with position := clamp position (-1) 1 }

/-- Crossfader::start_automation. -/
def Crossfader.start_automation (c : Crossfader) (from_position to_position : ℝ)
    (duration_frames : ℤ) : Crossfader :=
  { c with
    auto_start_pos := from_position
    auto_end_pos := to_position
    auto_total_frames := duration_frames
    auto_current_frame := 0
    position := from_position
    automating := true }

/-- Crossfader::stop_automation. -/
def Crossfader.stop_automation (c : Crossfader) : Crossfader :=
  { c with automating := false }

/-- Crossfader::advance_automation: returns the position used for this block
together with the updated automation state. -/
def Crossfader.advance_automation (c : Crossfader) (frames : ℤ) : ℝ × Crossfader :=
  if c.automating ∧ frames > 0 then
    let cur := c.auto_current_frame + frames
    if cur ≥ c.auto_total_frames then
      (c.auto_end_pos,
        { c with auto_current_frame := cur, position := c.auto_end_pos, automating := false })
    else
      let t0 := (cur : ℝ) / (c.auto_total_frames : ℝ)
      let t := t0 * t0 * (3 - 2 * t0)
      let pos := c.auto_start_pos + t * (c.auto_end_pos - c.auto_start_pos)
      (pos, { c with auto_current_frame := cur, position := pos })
  else (c.position, c)

/-- Crossfader::compute_volumes (deck A volume, deck B volume). -/
def compute_volumes (curve : CurveType) (pos : ℝ) : ℝ × ℝ :=
  let normalized := clamp ((pos + 1) / 2) 0 1
  match curve with
  | CurveType.Linear => (1 - normalized, normalized)
  | CurveType.EqualPower =>
      (Real.cos (normalized * 3.14159265358979323846 / 2),
       Real.sin (normalized * 3.14159265358979323846 / 2))
  | CurveType.EQSwap =>
      if normalized < 0.5 then (1, normalized * 2) else ((1 - normalized) * 2, 1)
  | CurveType.HardCut =>
      if normalized < 0.5 then (1, 0) else (0, 1)

/-- Crossfader::compute_mix_params. -/
def compute_mix_params (curve : CurveType) (pos : ℝ) : MixParams :=
  let normalized := clamp ((pos + 1) / 2) 0 1
  let vols := compute_volumes curve pos
  let base : MixParams :=
    { volume_a := vols.1, volume_b := vols.2
      eq_low_a := 0, eq_mid_a := 0, eq_high_a := 0
      eq_low_b := 0, eq_mid_b := 0, eq_high_b := 0 }
  if curve ≠ CurveType.EQSwap then base
  else
    let kill_db : ℝ := -60
    if normalized < 0.4 then
      let t := normalized / 0.4
      { base with
        eq_low_a := kill_db * t, eq_mid_a := 0, eq_high_a := 0
        eq_low_b := kill_db, eq_mid_b := kill_db * (1 - t), eq_high_b := 0 }
    else if normalized < 0.6 then
      let t := (normalized - 0.4) / 0.2
      { base with
        eq_low_a := kill_db, eq_mid_a := 0, eq_high_a := 0
        eq_low_b := kill_db * (1 - t), eq_mid_b := 0, eq_high_b := 0 }
    else
      let t := (normalized - 0.6) / 0.4
      { base with
        eq_low_a := kill_db, eq_mid_a := kill_db * t, eq_high_a := kill_db * t
        eq_low_b := 0, eq_mid_b := 0, eq_high_b := 0 }

/-- Crossfader::get_mix_params: advance the automation, then compute the
mix parameters at the resulting position. -/
def Crossfader.get_mix_params (c : Crossfader) (frames : ℤ) : MixParams × Crossfader :=
  let adv := c.advance_automation frames
  (compute_mix_params c.curve adv.1, adv.2)

/-! ### Scheduler — unnamed scheduler implementation (render / poll split)

The Deck's own DSP (3-band biquad EQ, volume ramp, the optional RubberBand
time-stretcher) is a separate component; at the scheduler boundary a deck
is its observable control state plus an abstract block-render function
renderFn frames mix = (samples, rendered_frames), invoked after the
scheduler writes the deck's volume and EQ atomics from the MixParams.  The
scheduler theorems hold for every deck behaviour. -/

inductive PlaybackState where
  | Stopped
  | Playing
  | Paused
  | Transitioning
deriving DecidableEq

structure DeckModel where
  loaded : Bool := false
  playing : Bool := false
  deck_track_id : ℤ := 0
  pos : ℝ := 0
  duration : ℝ := 0
  finished : Bool := false
  renderFn : ℕ → MixParams → List ℝ × ℕ

structure Scheduler where
  state : PlaybackState := PlaybackState.Stopped
  deck_a : DeckModel
  deck_b : DeckModel
  active_is_a : Bool := true
  crossfader : Crossfader := {}
  playlist : List PlaylistEntry := []
  current_index : ℕ := 0
  transitioning : Bool := false
  transition_trigger_pending : Bool := false
  transition_finished : Bool := false
  playback_finished : Bool := false
  max_buffer_frames : ℕ := 0
  sample_rate : ℤ := 44100
  transition_config : TransitionConfig := {}

/-- The deck the active pointer designates. -/
def Scheduler.active_deck (s : Scheduler) : DeckModel :=
  if s.active_is_a then s.deck_a else s.deck_b

/-- Scheduler::pause: pauses both decks and enters the Paused state (the
status callback is control-thread notification only and carries no state). -/
def Scheduler.pause (s : Scheduler) : Scheduler :=
  { s with
    deck_a := { s.deck_a with playing := false }
    deck_b := { s.deck_b with playing := false }
    state := PlaybackState.Paused }

/-- Scheduler::rt_update: the audio-thread flag update (frames is unused by
the source body as well). -/
def Scheduler.rt_update (s : Scheduler) (_frames : ℕ) : Scheduler :=
  if ¬s.active_deck.loaded then s
  else
    let current_pos := s.active_deck.pos
    let duration := s.active_deck.duration
    let s1 :=
      if ¬s.transitioning ∧ s.current_index < s.playlist.length then
        let entry := s.playlist.getD s.current_index default
        let transition_point :=
          match entry.transition_to_next with
          | some plan => plan.out_point.time_seconds
          | none => duration - s.transition_config.max_transition_seconds
        if current_pos ≥ transition_point ∧ s.current_index + 1 < s.playlist.length then
          { s with transition_trigger_pending := true }
        else s
      else s
    let s2 :=
      if s1.transitioning ∧ ¬s1.crossfader.automating then
        { s1 with transition_finished := true }
      else s1
    if s2.active_deck.finished ∧ ¬s2.transitioning then
      { s2 with playback_finished := true }
    else s2

/-- Scheduler::render: (interleaved stereo output, returned frame count,
scheduler after the block). -/
def Scheduler.render (s : Scheduler) (frames : ℕ) (sample_rate : ℤ) :
    List ℝ × ℕ × Scheduler :=
  if s.state = PlaybackState.Stopped ∨ s.state = PlaybackState.Paused then
    (List.replicate (frames * 2) 0, frames, s)
  else
    let s1 := { s with sample_rate := sample_rate }
    let frames := min frames s1.max_buffer_frames
    let s2 := s1.rt_update frames
    let mixc := s2.crossfader.get_mix_params (frames : ℤ)
    let mix := mixc.1
    let s3 := { s2 with crossfader := mixc.2 }
    let ra :=
      if s3.deck_a.playing then s3.deck_a.renderFn frames mix
      else (List.replicate (frames * 2) 0, 0)
    let rb :=
      if s3.deck_b.playing then s3.deck_b.renderFn frames mix
      else (List.replicate (frames * 2) 0, 0)
    let output := (List.range (frames * 2)).map fun i =>
      clamp (ra.1.getD i 0 + rb.1.getD i 0) (-1) 1
    (output, max ra.2 rb.2, s3)

/-! ### Deck position cursor — src/mixer/deck.cpp (Deck::Impl) -/

structure AudioBuffer where
  samples : List ℝ := []
  sample_rate : ℤ := 44100
  channels : ℤ := 2

/-- AudioBuffer::frame_count. -/
def AudioBuffer.frame_count (b : AudioBuffer) : ℕ :=
  if b.channels > 0 then b.samples.length / b.channels.toNat else 0

/-- AudioBuffer::duration_seconds. -/
def AudioBuffer.duration_seconds (b : AudioBuffer) : ℝ :=
  if b.sample_rate > 0 then (b.frame_count : ℝ) / (b.sample_rate : ℝ) else 0

structure DeckImpl where
  buffer : AudioBuffer := {}
  pos_samples : ℕ := 0
  impl_track_id : ℤ := 0

/-- Deck::Impl::seek.  castSizeT models the static_cast of a float to
size_t: well defined for representable non-negative values, undefined
behaviour for negative ones, so it stays an explicit parameter and the
seek theorem is quantified over all of its behaviours; the only structural
fact a size_t gives is non-negativity. -/
def DeckImpl.seek (castSizeT : ℝ → ℕ) (d : DeckImpl) (position_seconds : ℝ) : DeckImpl :=
  if d.buffer.sample_rate ≤ 0 then d
  else
    let frame := min (castSizeT (position_seconds * (d.buffer.sample_rate : ℝ)))
      d.buffer.frame_count
    { d with pos_samples := frame * d.buffer.channels.toNat }

/-- Deck::Impl::position (size_t division by the channel count, then float
division by the sample rate). -/
def DeckImpl.position (d : DeckImpl) : ℝ :=
  if d.buffer.sample_rate ≤ 0 ∨ d.buffer.channels ≤ 0 then 0
  else ((d.pos_samples / d.buffer.channels.toNat : ℕ) : ℝ) / (d.buffer.sample_rate : ℝ)

/-! ### Concrete instances used by the closed witness theorems -/

/-- A track whose key parses to 99 — outside the Camelot wheel. -/
def badKeyTrack1 : TrackInfo := { id := 51, key := "99A" }

/-- A track with an ordinary key, paired with badKeyTrack1. -/
def badKeyTrack2 : TrackInfo := { id := 52, key := "1A" }

/-- A trivially concrete RNG model used by witnesses. -/
def natRNG : RNGModel ℕ := { seed := fun n => n, draw := fun s _ => (s, s + 1) }



/-- A deck whose abstract render produces nothing. -/
def silentDeck : DeckModel := { renderFn := fun _ _ => ([], 0) }

/-- A scheduler sitting in the Paused state. -/
def pausedSched : Scheduler :=
  { state := PlaybackState.Paused, deck_a := silentDeck, deck_b := silentDeck }

/-- A scheduler sitting in the Playing state. -/
def playingSched : Scheduler :=
  { state := PlaybackState.Playing, deck_a := silentDeck, deck_b := silentDeck }

/-- One possible behaviour of the float→size_t cast: floor, with negatives
collapsed to 0. -/
def floorCast (x : ℝ) : ℕ := (⌊x⌋).toNat

/-- A loaded 2-channel buffer of 4 frames at 2 Hz (duration 2 s). -/
def witnessBuffer : AudioBuffer :=
  { samples := List.replicate 8 0, sample_rate := 2, channels := 2 }

/-- A deck cursor over witnessBuffer. -/
def witnessDeckImpl : DeckImpl := { buffer := witnessBuffer }


/-- The track-record invariants of spec §3: positive BPM, strictly
increasing beats, a well-formed Camelot key, MFCC length 13, chroma length
12 non-negative summing to 1, a non-empty energy curve with values in
[0, 1], and positive duration. -/
def TrackRecordInvariants (t : TrackInfo) : Prop :=
  t.bpm > 0
  ∧ t.beats.Chain' (fun x y => x < y)
  ∧ (∃ n m, 1 ≤ n ∧ n ≤ 12 ∧ (m = 'A' ∨ m = 'B') ∧ t.key = mkCamelotKey n m)
  ∧ t.mfcc.length = 13
  ∧ t.chroma.length = 12
  ∧ (∀ x ∈ t.chroma, 0 ≤ x)
  ∧ t.chroma.sum = 1
  ∧ t.energy_curve ≠ []
  ∧ (∀ x ∈ t.energy_curve, 0 ≤ x ∧ x ≤ 1)
  ∧ t.duration > 0

/-- The Pearson denominator of energy_distance evaluated at a pair of equal
curves: the centred second moment of the resampled curve. -/
def energySelfVariance (e : List ℝ) : ℝ :=
  let target_len : ℕ := 100
  let e1 := resample e target_len
  let mean1 := (∑ i ∈ Finset.range target_len, e1.getD i 0) / (target_len : ℝ)
  ∑ i ∈ Finset.range target_len, (e1.getD i 0 - mean1) * (e1.getD i 0 - mean1)

/-- A 13-dimensional MFCC vector of unit norm. -/
def mfcc13 : List ℝ := [1, 0, 0, 0, 0, 0, 0, 0, 0, 0, 0, 0, 0]

/-- A 12-dimensional non-negative chroma vector summing to 1. -/
def chroma12 : List ℝ := [1, 0, 0, 0, 0, 0, 0, 0, 0, 0, 0, 0]

/-- A track satisfying every record invariant whose energy curve is the
single sample [0.6] — constant after resampling. -/
def cexTrack : TrackInfo :=
  { id := 1, bpm := 128, beats := [0, 0.5, 1, 1.5], key := "8A"
    mfcc := mfcc13, chroma := chroma12
    energy_curve := [0.6], duration := 120 }

/-- A track satisfying every record invariant with the non-constant energy
curve [0, 1]. -/
def wTrack : TrackInfo :=
  { id := 2, bpm := 128, beats := [0, 0.5, 1, 1.5], key := "9A"
    mfcc := mfcc13, chroma := chroma12
    energy_curve := [0, 1], duration := 120 }

end

/-! ## Theorems -/

set_option maxHeartbeats 4000000 in
/-- C4: for well-formed Camelot keys (wheel numbers in 1..12, modes A/B)
camelot_distance returns the circular wheel distance d when the modes are
equal, 0 when the numbers are equal and the modes differ, and d + 1
otherwise; it is 0 on equal keys, symmetric, lies in [0, 7], and takes the
four quoted scenario values. -/
theorem camelot_distance_wellformed (n1 n2 : ℕ) (m1 m2 : Char)
    (hn1l : 1 ≤ n1) (hn1u : n1 ≤ 12) (hn2l : 1 ≤ n2) (hn2u : n2 ≤ 12)
    (hm1 : m1 = 'A' ∨ m1 = 'B') (hm2 : m2 = 'A' ∨ m2 = 'B') :
    camelot_distance (mkCamelotKey n1 m1) (mkCamelotKey n2 m2) =
      (if m1 = m2 then camelotWheelDist n1 n2
       else if n1 = n2 then 0 else camelotWheelDist n1 n2 + 1)
    ∧ camelot_distance (mkCamelotKey n1 m1) (mkCamelotKey n1 m1) = 0
    ∧ camelot_distance (mkCamelotKey n1 m1) (mkCamelotKey n2 m2) =
        camelot_distance (mkCamelotKey n2 m2) (mkCamelotKey n1 m1)
    ∧ 0 ≤ camelot_distance (mkCamelotKey n1 m1) (mkCamelotKey n2 m2)
    ∧ camelot_distance (mkCamelotKey n1 m1) (mkCamelotKey n2 m2) ≤ 7
    ∧ camelot_distance "8A" "8A" = 0
    ∧ camelot_distance "8A" "9A" = 1
    ∧ camelot_distance "8A" "8B" = 0
    ∧ camelot_distance "1A" "7A" = 6 := by
  rcases hm1 with rfl | rfl <;> rcases hm2 with rfl | rfl <;>
    interval_cases n1 <;> interval_cases n2 <;> decide

/-- Witness for C4 at the concrete keys 8A and 9A. -/
theorem camelot_distance_wellformed_witness :
    camelot_distance (mkCamelotKey 8 'A') (mkCamelotKey 9 'A') =
      (if ('A' : Char) = 'A' then camelotWheelDist 8 9
       else if (8 : ℕ) = 9 then 0 else camelotWheelDist 8 9 + 1) :=
  (camelot_distance_wellformed 8 9 'A' 'A' (by decide) (by decide) (by decide)
    (by decide) (Or.inl rfl) (Or.inl rfl)).1

/-- C10: a key that is empty or whose leading numeric part parses to 0 makes
camelot_distance return 0, so keys_compatible deems the pair compatible. -/
theorem camelot_distance_malformed (key1 key2 : String)
    (h : key1 = "" ∨ key2 = "" ∨ parse_camelot_number key1 = 0
      ∨ parse_camelot_number key2 = 0) :
    camelot_distance key1 key2 = 0 ∧ keys_compatible key1 key2 = true := by
  have hd : camelot_distance key1 key2 = 0 := by
    unfold camelot_distance
    by_cases he : key1.data = [] ∨ key2.data = []
    · simp [he]
    · push_neg at he
      have hp : parse_camelot_number key1 = 0 ∨ parse_camelot_number key2 = 0 := by
        rcases h with h | h | h | h
        · exact absurd (by rw [h]) he.1
        · exact absurd (by rw [h]) he.2
        · exact Or.inl h
        · exact Or.inr h
      simp only [he.1, he.2, or_self, if_false]
      simp [hp]
  refine ⟨hd, ?_⟩
  simp [keys_compatible, hd]

/-- Witness for C10 at the unparsable key xA. -/
theorem camelot_distance_malformed_witness :
    camelot_distance "xA" "8A" = 0 ∧ keys_compatible "xA" "8A" = true :=
  camelot_distance_malformed "xA" "8A" (Or.inr (Or.inr (Or.inl (by decide))))

/-- C9: on a loaded deck (positive sample rate and channel count) the
playback position after seek(s) lies in [0, duration], for every seek
argument s — negative or beyond the track length — and for every behaviour
of the float→size_t cast. -/
theorem deck_seek_clamped (castSizeT : ℝ → ℕ) (d : DeckImpl) (s : ℝ)
    (hsr : 0 < d.buffer.sample_rate) (hch : 0 < d.buffer.channels) :
    0 ≤ (DeckImpl.seek castSizeT d s).position
    ∧ (DeckImpl.seek castSizeT d s).position ≤ d.buffer.duration_seconds := by
  have hsrn : ¬ d.buffer.sample_rate ≤ 0 := not_le.mpr hsr
  have hchn : 0 < d.buffer.channels.toNat := by omega
  have hsrR : (0 : ℝ) < (d.buffer.sample_rate : ℝ) := by exact_mod_cast hsr
  unfold DeckImpl.seek DeckImpl.position
  rw [if_neg hsrn]
  simp only
  rw [if_neg (by push_neg; exact ⟨hsr, hch⟩)]
  rw [Nat.mul_div_cancel _ hchn]
  constructor
  · positivity
  · unfold AudioBuffer.duration_seconds
    rw [if_pos hsr]
    exact div_le_div_of_nonneg_right
      (by exact_mod_cast min_le_right _ d.buffer.frame_count) hsrR.le

/-- Witness for C9: seeking to −5 s on a concrete 2 s deck. -/
theorem deck_seek_clamped_witness :
    0 ≤ (DeckImpl.seek floorCast witnessDeckImpl (-5)).position
    ∧ (DeckImpl.seek floorCast witnessDeckImpl (-5)).position
        ≤ witnessDeckImpl.buffer.duration_seconds :=
  deck_seek_clamped floorCast witnessDeckImpl (-5) (by norm_num [witnessDeckImpl, witnessBuffer])
    (by norm_num [witnessDeckImpl, witnessBuffer])

/-- C8: with the scheduler Paused or Stopped, render zero-fills all
2·frames interleaved samples and returns frames; in particular after
pause() is called in the Playing state the next render of 512 frames is
all zeros. -/
theorem scheduler_render_paused_silent (s t : Scheduler) (frames : ℕ) (sample_rate : ℤ)
    (h : s.state = PlaybackState.Paused ∨ s.state = PlaybackState.Stopped)
    (_ht : t.state = PlaybackState.Playing) :
    ((s.render frames sample_rate).1 = List.replicate (frames * 2) 0
      ∧ (s.render frames sample_rate).2.1 = frames)
    ∧ ((t.pause.render 512 sample_rate).1 = List.replicate (512 * 2) 0
      ∧ (t.pause.render 512 sample_rate).2.1 = 512) := by
  refine ⟨?_, ?_⟩
  · unfold Scheduler.render
    rw [if_pos h.symm]
    exact ⟨rfl, rfl⟩
  · have hp : (t.pause).state = PlaybackState.Paused := rfl
    unfold Scheduler.render
    rw [if_pos (Or.inr hp)]
    exact ⟨rfl, rfl⟩

/-- Witness for C8 on concrete paused and playing schedulers. -/
theorem scheduler_render_paused_silent_witness :
    ((pausedSched.render 512 44100).1 = List.replicate (512 * 2) 0
      ∧ (pausedSched.render 512 44100).2.1 = 512)
    ∧ ((playingSched.pause.render 512 44100).1 = List.replicate (512 * 2) 0
      ∧ (playingSched.pause.render 512 44100).2.1 = 512) :=
  scheduler_render_paused_silent pausedSched playingSched 512 44100 (Or.inl rfl) rfl

/-- C7: for the EQSwap curve compute_mix_params emits exactly the
three-phase EQ gain schedule on n = clamp((pos+1)/2, 0, 1); every
non-EQSwap curve emits all-zero EQ gains; and at pos = −1, +1 and 0 the
gains take the quoted boundary values. -/
theorem compute_mix_params_eqswap_phases (pos n : ℝ) (curve : CurveType)
    (hn : n = clamp ((pos + 1) / 2) 0 1) (hc : curve ≠ CurveType.EQSwap) :
    ((n < 0.4 →
        (compute_mix_params CurveType.EQSwap pos).eq_low_a = -60 * (n / 0.4)
      ∧ (compute_mix_params CurveType.EQSwap pos).eq_mid_a = 0
      ∧ (compute_mix_params CurveType.EQSwap pos).eq_high_a = 0
      ∧ (compute_mix_params CurveType.EQSwap pos).eq_low_b = -60
      ∧ (compute_mix_params CurveType.EQSwap pos).eq_mid_b = -60 * (1 - n / 0.4)
      ∧ (compute_mix_params CurveType.EQSwap pos).eq_high_b = 0)
    ∧ (0.4 ≤ n → n < 0.6 →
        (compute_mix_params CurveType.EQSwap pos).eq_low_a = -60
      ∧ (compute_mix_params CurveType.EQSwap pos).eq_mid_a = 0
      ∧ (compute_mix_params CurveType.EQSwap pos).eq_high_a = 0
      ∧ (compute_mix_params CurveType.EQSwap pos).eq_low_b = -60 * (1 - (n - 0.4) / 0.2)
      ∧ (compute_mix_params CurveType.EQSwap pos).eq_mid_b = 0
      ∧ (compute_mix_params CurveType.EQSwap pos).eq_high_b = 0)
    ∧ (0.6 ≤ n →
        (compute_mix_params CurveType.EQSwap pos).eq_low_a = -60
      ∧ (compute_mix_params CurveType.EQSwap pos).eq_mid_a = -60 * ((n - 0.6) / 0.4)
      ∧ (compute_mix_params CurveType.EQSwap pos).eq_high_a = -60 * ((n - 0.6) / 0.4)
      ∧ (compute_mix_params CurveType.EQSwap pos).eq_low_b = 0
      ∧ (compute_mix_params CurveType.EQSwap pos).eq_mid_b = 0
      ∧ (compute_mix_params CurveType.EQSwap pos).eq_high_b = 0))
    ∧ ((compute_mix_params curve pos).eq_low_a = 0
      ∧ (compute_mix_params curve pos).eq_mid_a = 0
      ∧ (compute_mix_params curve pos).eq_high_a = 0
      ∧ (compute_mix_params curve pos).eq_low_b = 0
      ∧ (compute_mix_params curve pos).eq_mid_b = 0
      ∧ (compute_mix_params curve pos).eq_high_b = 0)
    ∧ ((compute_mix_params CurveType.EQSwap (-1)).eq_low_a = 0
      ∧ (compute_mix_params CurveType.EQSwap (-1)).eq_low_b = -60)
    ∧ ((compute_mix_params CurveType.EQSwap 1).eq_low_b = 0
      ∧ (compute_mix_params CurveType.EQSwap 1).eq_mid_b = 0
      ∧ (compute_mix_params CurveType.EQSwap 1).eq_high_b = 0)
    ∧ (compute_mix_params CurveType.EQSwap 0).eq_low_a < -50 := by
  subst hn
  refine ⟨⟨?_, ?_, ?_⟩, ?_, ?_, ?_, ?_⟩
  · intro h1
    unfold compute_mix_params
    simp only [ne_eq, not_true_eq_false, if_false, reduceCtorEq]
    rw [if_pos h1]
    simp
  · intro h1 h2
    unfold compute_mix_params
    simp only [ne_eq, not_true_eq_false, if_false, reduceCtorEq]
    rw [if_neg (not_lt.mpr h1), if_pos h2]
    simp
  · intro h1
    unfold compute_mix_params
    simp only [ne_eq, not_true_eq_false, if_false, reduceCtorEq]
    rw [if_neg (by linarith), if_neg (by linarith)]
    simp
  · unfold compute_mix_params
    rw [if_pos hc]
    exact ⟨rfl, rfl, rfl, rfl, rfl, rfl⟩
  · have : clamp ((-1 + 1) / 2) 0 1 = 0 := by norm_num [clamp]
    unfold compute_mix_params
    rw [if_neg (by simp)]
    rw [this]
    norm_num
  · have : clamp ((1 + 1) / 2) 0 1 = 1 := by norm_num [clamp]
    unfold compute_mix_params
    rw [if_neg (by simp)]
    rw [this]
    norm_num
  · have : clamp ((0 + 1) / 2) 0 1 = 0.5 := by norm_num [clamp]
    unfold compute_mix_params
    rw [if_neg (by simp)]
    rw [this]
    norm_num

/-- Witness for C7: a Linear-curve call at pos = −0.2 has all six EQ gains
at unity. -/
theorem compute_mix_params_eqswap_phases_witness :
    (compute_mix_params CurveType.Linear (-0.2)).eq_low_a = 0
    ∧ (compute_mix_params CurveType.Linear (-0.2)).eq_mid_a = 0
    ∧ (compute_mix_params CurveType.Linear (-0.2)).eq_high_a = 0
    ∧ (compute_mix_params CurveType.Linear (-0.2)).eq_low_b = 0
    ∧ (compute_mix_params CurveType.Linear (-0.2)).eq_mid_b = 0
    ∧ (compute_mix_params CurveType.Linear (-0.2)).eq_high_b = 0 :=
  (compute_mix_params_eqswap_phases (-0.2) (clamp ((-0.2 + 1) / 2) 0 1)
    CurveType.Linear rfl (by decide)).2.1

/-- Bounds of utils::clamp when the interval is well formed. -/
theorem clamp_bounds (v lo hi : ℝ) (h : lo ≤ hi) :
    lo ≤ clamp v lo hi ∧ clamp v lo hi ≤ hi :=
  ⟨le_max_left _ _, max_le h (min_le_left _ _)⟩

/-- C5 counterexample: on the anti-correlated vectors [1] and [-1] the
cosine distance is 2, so it does exceed 1. -/
theorem cosine_distance_exceeds_one :
    cosine_distance [1] [-1] = 2 ∧ ¬ cosine_distance [1] [-1] ≤ 1 := by
  have h : cosine_distance [1] [-1] = 2 := by
    unfold cosine_distance
    norm_num [clamp, Finset.sum_range_succ]
  exact ⟨h, by rw [h]; norm_num⟩

/-- C5 amended: for equal-length non-empty vectors the cosine distance is
1 minus the cosine of the angle clamped to [−1, 1] — a value in [0, 2], not
[0, 1] — and it is 1 whenever either vector has zero norm. -/
theorem cosine_distance_range (a b : List ℝ) (hlen : a.length = b.length)
    (hne : a ≠ []) :
    cosine_distance a b =
      (if (∑ i ∈ Finset.range a.length, a.getD i 0 * a.getD i 0) = 0
          ∨ (∑ i ∈ Finset.range a.length, b.getD i 0 * b.getD i 0) = 0 then 1
       else 1 - clamp ((∑ i ∈ Finset.range a.length, a.getD i 0 * b.getD i 0) /
          (Real.sqrt (∑ i ∈ Finset.range a.length, a.getD i 0 * a.getD i 0) *
           Real.sqrt (∑ i ∈ Finset.range a.length, b.getD i 0 * b.getD i 0))) (-1) 1)
    ∧ 0 ≤ cosine_distance a b ∧ cosine_distance a b ≤ 2 := by
  have hcond : ¬ (a.length ≠ b.length ∨ a = []) := by
    push_neg
    exact ⟨hlen, hne⟩
  have he : cosine_distance a b =
      (if (∑ i ∈ Finset.range a.length, a.getD i 0 * a.getD i 0) = 0
          ∨ (∑ i ∈ Finset.range a.length, b.getD i 0 * b.getD i 0) = 0 then 1
       else 1 - clamp ((∑ i ∈ Finset.range a.length, a.getD i 0 * b.getD i 0) /
          (Real.sqrt (∑ i ∈ Finset.range a.length, a.getD i 0 * a.getD i 0) *
           Real.sqrt (∑ i ∈ Finset.range a.length, b.getD i 0 * b.getD i 0))) (-1) 1) := by
    unfold cosine_distance
    rw [if_neg hcond]
  refine ⟨he, ?_⟩
  rw [he]
  split_ifs
  · norm_num
  · have h1 := (clamp_bounds ((∑ i ∈ Finset.range a.length, a.getD i 0 * b.getD i 0) /
        (Real.sqrt (∑ i ∈ Finset.range a.length, a.getD i 0 * a.getD i 0) *
         Real.sqrt (∑ i ∈ Finset.range a.length, b.getD i 0 * b.getD i 0))) (-1) 1
      (by norm_num))
    constructor <;> linarith [h1.1, h1.2]

/-- Witness for the amended C5 on the concrete vectors [1] and [0]. -/
theorem cosine_distance_range_witness :
    0 ≤ cosine_distance [1] [0] ∧ cosine_distance [1] [0] ≤ 2 :=
  (cosine_distance_range [1] [0] rfl (by simp)).2

/-- C3: for any two tracks and a config with min ≤ max transition seconds,
the plan's crossfade duration lies in [min, max] and its stretch ratio is
either exactly 1 or the half/double-adjusted BPM ratio within the stretch
limit; in particular 128 → 180 BPM at limit 0.06 keeps ratio 1. -/
theorem create_plan_stretch_crossfade (from_track to_track : TrackInfo)
    (config : TransitionConfig)
    (hmm : config.min_transition_seconds ≤ config.max_transition_seconds) :
    (config.min_transition_seconds ≤ (create_plan from_track to_track config).crossfade_duration
      ∧ (create_plan from_track to_track config).crossfade_duration
          ≤ config.max_transition_seconds)
    ∧ ((create_plan from_track to_track config).bpm_stretch_ratio = 1
      ∨ ((create_plan from_track to_track config).bpm_stretch_ratio
            = calculate_stretch_ratio from_track.bpm to_track.bpm
        ∧ |1 - (create_plan from_track to_track config).bpm_stretch_ratio|
            ≤ config.stretch_limit))
    ∧ (create_plan { bpm := 128 } { bpm := 180 }
        { stretch_limit := 0.06 }).bpm_stretch_ratio = 1 := by
  refine ⟨?_, ?_, ?_⟩
  · have hcd : (create_plan from_track to_track config).crossfade_duration =
        calculate_crossfade_duration
          (if from_track.bpm > 0 ∧ to_track.bpm > 0
           then (from_track.bpm + to_track.bpm) / 2 else 120) config := by
      simp only [create_plan]
    rw [hcd]
    by_cases hq : from_track.bpm > 0 ∧ to_track.bpm > 0
    · rw [if_pos hq]
      unfold calculate_crossfade_duration
      rw [if_neg (by push_neg; linarith [hq.1, hq.2])]
      exact clamp_bounds _ _ _ hmm
    · rw [if_neg hq]
      unfold calculate_crossfade_duration
      rw [if_neg (by norm_num)]
      exact clamp_bounds _ _ _ hmm
  · have hsr : (create_plan from_track to_track config).bpm_stretch_ratio =
        (if from_track.bpm > 0 ∧ to_track.bpm > 0 then
          (if |1 - calculate_stretch_ratio from_track.bpm to_track.bpm| > config.stretch_limit
           then 1 else calculate_stretch_ratio from_track.bpm to_track.bpm)
         else 1) := by
      simp only [create_plan]
    rw [hsr]
    split_ifs with h1 h2
    · exact Or.inl rfl
    · exact Or.inr ⟨rfl, le_of_not_lt h2⟩
    · exact Or.inl rfl
  · have hsr : (create_plan { bpm := 128 } { bpm := 180 }
        { stretch_limit := 0.06 } : TransitionPlan).bpm_stretch_ratio =
        (if (128 : ℝ) > 0 ∧ (180 : ℝ) > 0 then
          (if |1 - calculate_stretch_ratio 128 180| > (0.06 : ℝ)
           then 1 else calculate_stretch_ratio 128 180)
         else 1) := by
      simp only [create_plan]
    have habs : |1 - (128 : ℝ) / 180| = 13 / 45 := by
      rw [abs_of_pos] <;> norm_num
    have habs2 : |(13 : ℝ) / 45| = 13 / 45 := by
      rw [abs_of_pos] ; norm_num
    have hc : calculate_stretch_ratio 128 180 = 128 / 180 := by
      unfold calculate_stretch_ratio
      norm_num [habs, habs2]
    rw [hsr, if_pos (by norm_num), hc, if_pos (by rw [habs]; norm_num)]
/-- Witness for C3 with the default transition config. -/
theorem create_plan_stretch_crossfade_witness :
    ({} : TransitionConfig).min_transition_seconds
        ≤ (create_plan { bpm := 128 } { bpm := 180 } {}).crossfade_duration
    ∧ (create_plan { bpm := 128 } { bpm := 180 } {}).crossfade_duration
        ≤ ({} : TransitionConfig).max_transition_seconds :=
  (create_plan_stretch_crossfade { bpm := 128 } { bpm := 180 } {} (by norm_num)).1

/-! ### Shared evaluation lemmas for the similarity model -/

/-- Let-free form of cosine_distance. -/
theorem cosine_distance_eq (a b : List ℝ) :
    cosine_distance a b =
      if a.length ≠ b.length ∨ a = [] then 1
      else if (∑ i ∈ Finset.range a.length, a.getD i 0 * a.getD i 0) = 0
          ∨ (∑ i ∈ Finset.range a.length, b.getD i 0 * b.getD i 0) = 0 then 1
      else 1 - clamp ((∑ i ∈ Finset.range a.length, a.getD i 0 * b.getD i 0) /
          (Real.sqrt (∑ i ∈ Finset.range a.length, a.getD i 0 * a.getD i 0) *
           Real.sqrt (∑ i ∈ Finset.range a.length, b.getD i 0 * b.getD i 0))) (-1) 1 := rfl

/-- cosine_distance is never negative. -/
theorem cosine_distance_nonneg (a b : List ℝ) : 0 ≤ cosine_distance a b := by
  rw [cosine_distance_eq]
  split_ifs with h1 h2
  · norm_num
  · norm_num
  · have h := max_le (show ((-1:ℝ) ≤ 1) by norm_num)
      (min_le_left 1 ((∑ i ∈ Finset.range a.length, a.getD i 0 * b.getD i 0) /
        (Real.sqrt (∑ i ∈ Finset.range a.length, a.getD i 0 * a.getD i 0) *
         Real.sqrt (∑ i ∈ Finset.range a.length, b.getD i 0 * b.getD i 0))))
    unfold clamp
    linarith

/-- cosine_distance of a vector with itself is 0 once its norm is nonzero. -/
theorem cosine_distance_self (v : List ℝ) (hne : v ≠ [])
    (hnorm : (∑ i ∈ Finset.range v.length, v.getD i 0 * v.getD i 0) ≠ 0) :
    cosine_distance v v = 0 := by
  rw [cosine_distance_eq]
  rw [if_neg (by push_neg; exact ⟨rfl, hne⟩), if_neg (by push_neg; exact ⟨hnorm, hnorm⟩)]
  have hnn : (0:ℝ) ≤ ∑ i ∈ Finset.range v.length, v.getD i 0 * v.getD i 0 :=
    Finset.sum_nonneg fun i _ => mul_self_nonneg _
  rw [Real.mul_self_sqrt hnn, div_self hnorm]
  norm_num [clamp]

/-- Let-free form of bpm_distance. -/
theorem bpm_distance_eq (x y : ℝ) :
    bpm_distance x y =
      if x ≤ 0 ∨ y ≤ 0 then 0
      else min |1 - x / y| (min |2 - x / y| |0.5 - x / y|) := rfl

/-- bpm_distance is never negative. -/
theorem bpm_distance_nonneg (x y : ℝ) : 0 ≤ bpm_distance x y := by
  rw [bpm_distance_eq]
  split_ifs
  · norm_num
  · exact le_min (abs_nonneg _) (le_min (abs_nonneg _) (abs_nonneg _))

/-- bpm_distance of a positive BPM with itself is 0. -/
theorem bpm_distance_self (x : ℝ) (hx : 0 < x) : bpm_distance x x = 0 := by
  rw [bpm_distance_eq, if_neg (by push_neg; exact ⟨hx, hx⟩), div_self hx.ne']
  rw [show |1 - (1:ℝ)| = 0 by norm_num, show |2 - (1:ℝ)| = 1 by norm_num,
    show |0.5 - (1:ℝ)| = 0.5 by rw [abs_of_nonpos] <;> norm_num]
  norm_num

/-- Let-free form of camelot_distance. -/
theorem camelot_distance_eq (k1 k2 : String) :
    camelot_distance k1 k2 =
      if k1.data = [] ∨ k2.data = [] then 0
      else if parse_camelot_number k1 = 0 ∨ parse_camelot_number k2 = 0 then 0
      else if parse_camelot_mode k1 = parse_camelot_mode k2 then
        min |parse_camelot_number k1 - parse_camelot_number k2|
          (12 - |parse_camelot_number k1 - parse_camelot_number k2|)
      else if parse_camelot_number k1 = parse_camelot_number k2 then 0
      else min |parse_camelot_number k1 - parse_camelot_number k2|
        (12 - |parse_camelot_number k1 - parse_camelot_number k2|) + 1 := rfl

/-- camelot_distance of any key with itself is 0. -/
theorem camelot_distance_self (k : String) : camelot_distance k k = 0 := by
  rw [camelot_distance_eq]
  split_ifs with h1 h2 h3
  · rfl
  · rfl
  · simp
  · rfl
  · exact absurd rfl h3

/-- Let-free form of duration_distance. -/
theorem duration_distance_eq (x y : ℝ) :
    duration_distance x y =
      if x ≤ 0 ∨ y ≤ 0 then 0
      else clamp (1 - 1 / (max x y / min x y)) 0 1 := rfl

/-- duration_distance is never negative. -/
theorem duration_distance_nonneg (x y : ℝ) : 0 ≤ duration_distance x y := by
  rw [duration_distance_eq]
  split_ifs
  · norm_num
  · exact le_max_left _ _

/-- duration_distance of a positive duration with itself is 0. -/
theorem duration_distance_self (x : ℝ) (hx : 0 < x) : duration_distance x x = 0 := by
  rw [duration_distance_eq, if_neg (by push_neg; exact ⟨hx, hx⟩)]
  simp only [max_self, min_self]
  rw [div_self hx.ne']
  norm_num [clamp]

/-- A Pearson-style correlation never exceeds 1 when its denominator is the
Cauchy–Schwarz bound. -/
theorem pearson_corr_le_one (f g : ℕ → ℝ) (n : ℕ)
    (h : Real.sqrt ((∑ i ∈ Finset.range n, f i * f i)
      * (∑ i ∈ Finset.range n, g i * g i)) > 1e-10) :
    (∑ i ∈ Finset.range n, f i * g i) /
      Real.sqrt ((∑ i ∈ Finset.range n, f i * f i)
        * (∑ i ∈ Finset.range n, g i * g i)) ≤ 1 := by
  have hpos : (0:ℝ) < Real.sqrt ((∑ i ∈ Finset.range n, f i * f i)
      * (∑ i ∈ Finset.range n, g i * g i)) := lt_trans (by norm_num) h
  rw [div_le_one hpos]
  have hcs : (∑ i ∈ Finset.range n, f i * g i) * (∑ i ∈ Finset.range n, f i * g i)
      ≤ (∑ i ∈ Finset.range n, f i * f i) * (∑ i ∈ Finset.range n, g i * g i) := by
    have h2 := Finset.sum_mul_sq_le_sq_mul_sq (Finset.range n) f g
    simpa [pow_two] using h2
  calc (∑ i ∈ Finset.range n, f i * g i) ≤ |∑ i ∈ Finset.range n, f i * g i| :=
        le_abs_self _
    _ = Real.sqrt ((∑ i ∈ Finset.range n, f i * g i)
        * (∑ i ∈ Finset.range n, f i * g i)) := (Real.sqrt_mul_self_eq_abs _).symm
    _ ≤ Real.sqrt ((∑ i ∈ Finset.range n, f i * f i)
        * (∑ i ∈ Finset.range n, g i * g i)) := Real.sqrt_le_sqrt hcs

/-- A segment compared with itself contributes nothing. -/
theorem segmentDiff_self (e : List ℝ) (s t : ℕ) : segmentDiff e e s t = 0 := by
  unfold segmentDiff
  simp

/-- clamp to an interval with lower end 0 is non-negative. -/
theorem clamp_nonneg_left (v hi : ℝ) : 0 ≤ clamp v 0 hi := le_max_left _ _

/-- segment_energy_distance is never negative. -/
theorem segment_energy_distance_nonneg (e1 e2 : List ℝ) (n : ℕ) :
    0 ≤ segment_energy_distance e1 e2 n := by
  unfold segment_energy_distance
  dsimp only
  split_ifs <;> first | exact clamp_nonneg_left _ _ | norm_num

/-- segment_energy_distance of a curve with itself is 0. -/
theorem segment_energy_distance_self (e : List ℝ) (n : ℕ) :
    segment_energy_distance e e n = 0 := by
  unfold segment_energy_distance
  dsimp only
  split_ifs <;>
    first
    | rfl
    | · rw [Finset.sum_congr rfl fun s _ => segmentDiff_self e _ _,
          Finset.sum_const, smul_zero, zero_div]
        norm_num [clamp]

/-- energy_distance is never negative. -/
theorem energy_distance_nonneg (e1 e2 : List ℝ) : 0 ≤ energy_distance e1 e2 := by
  unfold energy_distance
  dsimp only
  split_ifs with h1 h2
  · norm_num
  · have hc := pearson_corr_le_one
      (fun i => (resample e1 100).getD i 0
        - (∑ i ∈ Finset.range 100, (resample e1 100).getD i 0) / (100:ℝ))
      (fun i => (resample e2 100).getD i 0
        - (∑ i ∈ Finset.range 100, (resample e2 100).getD i 0) / (100:ℝ))
      100 h2
    have hseg := segment_energy_distance_nonneg (resample e1 100) (resample e2 100) 5
    simp only at hc
    nlinarith [hc, hseg]
  · have hseg := segment_energy_distance_nonneg (resample e1 100) (resample e2 100) 5
    nlinarith [hseg]

/-- energy_distance of a curve with itself is 0 whenever the resampled
curve is not essentially constant (its centred second moment clears the
1e-10 guard). -/
theorem energy_distance_self_of_var (e : List ℝ)
    (hv : energySelfVariance e > 1e-10) : energy_distance e e = 0 := by
  by_cases he : e = []
  · unfold energy_distance
    rw [if_pos (Or.inl he)]
  · unfold energySelfVariance at hv
    dsimp only at hv
    unfold energy_distance
    dsimp only
    rw [if_neg (by push_neg; exact ⟨he, he⟩)]
    have hvnn : (0:ℝ) ≤ ∑ i ∈ Finset.range 100,
        ((resample e 100).getD i 0
          - (∑ i ∈ Finset.range 100, (resample e 100).getD i 0) / ((100:ℕ):ℝ))
        * ((resample e 100).getD i 0
          - (∑ i ∈ Finset.range 100, (resample e 100).getD i 0) / ((100:ℕ):ℝ)) :=
      Finset.sum_nonneg fun i _ => mul_self_nonneg _
    rw [Real.sqrt_mul_self hvnn]
    rw [if_pos hv]
    rw [div_self (ne_of_gt (lt_trans (by norm_num) hv))]
    rw [segment_energy_distance_self]
    norm_num

/-- A weighted if-contribution is non-negative when the gate implies the
weight is, and the distance is. -/
theorem ite_mul_nonneg (C : Prop) [Decidable C] (w dist : ℝ)
    (hw : C → 0 ≤ w) (hd : 0 ≤ dist) : 0 ≤ if C then w * dist else 0 := by
  split_ifs with hc
  · exact mul_nonneg (hw hc) hd
  · exact le_rfl

/-- A weighted if-contribution vanishes when the gate implies the distance
does. -/
theorem ite_mul_eq_zero (C : Prop) [Decidable C] (w dist : ℝ)
    (h : C → dist = 0) : (if C then w * dist else 0) = 0 := by
  split_ifs with hc
  · rw [h hc, mul_zero]
  · rfl

/-- The final normalisation step of SimilarityCalculator::distance keeps a
non-negative accumulator non-negative. -/
theorem div_ite_nonneg (dd tw : ℝ) (hd : 0 ≤ dd) :
    0 ≤ if tw > 0 then dd / tw else 0 := by
  split_ifs with h
  · exact div_nonneg hd h.le
  · exact le_rfl

/-- key_distance of a key with itself is 0. -/
theorem key_distance_self (k : String) : key_distance k k = 0 := by
  unfold key_distance
  rw [camelot_distance_self]
  norm_num

/-- A list sum as a range-indexed sum. -/
theorem list_sum_eq (l : List ℝ) :
    l.sum = ∑ i ∈ Finset.range l.length, l.getD i 0 := by
  induction l with
  | nil => simp
  | cons x xs ih =>
      rw [List.sum_cons, List.length_cons, Finset.sum_range_succ', ih]
      simp [add_comm]

/-- A non-negative list summing to 1 has nonzero squared norm. -/
theorem sum_sq_ne_zero_of_sum_one (l : List ℝ) (_hnn : ∀ x ∈ l, 0 ≤ x)
    (hs : l.sum = 1) :
    (∑ i ∈ Finset.range l.length, l.getD i 0 * l.getD i 0) ≠ 0 := by
  intro h0
  have hall := (Finset.sum_eq_zero_iff_of_nonneg
    (fun i (_ : i ∈ Finset.range l.length) => mul_self_nonneg (l.getD i 0))).mp h0
  have hz : l.sum = 0 := by
    rw [list_sum_eq]
    exact Finset.sum_eq_zero fun i hi => mul_self_eq_zero.mp (hall i hi)
  rw [hs] at hz
  exact one_ne_zero hz

/-- The data of a well-formed key string is its digits followed by the
mode letter. -/
theorem mkCamelotKey_data (n : ℕ) (m : Char) :
    (mkCamelotKey n m).data = (toString n).data ++ [m] := by
  simp [mkCamelotKey, String.data_append, String.singleton]

/-- Parsing a well-formed key recovers its wheel number. -/
theorem parse_mkCamelotKey (n : ℕ) (m : Char) (h1 : 1 ≤ n) (h2 : n ≤ 12) :
    parse_camelot_number (mkCamelotKey n m) = n := by
  unfold parse_camelot_number
  rw [mkCamelotKey_data, if_neg (by simp), List.dropLast_concat]
  interval_cases n <;> decide

/-- Parsing a well-formed key recovers its mode character. -/
theorem mode_mkCamelotKey (n : ℕ) (m : Char) :
    parse_camelot_mode (mkCamelotKey n m) = m := by
  unfold parse_camelot_mode
  rw [mkCamelotKey_data, if_neg (by simp), List.getLastD_concat]

/-- camelot_distance on well-formed keys is never negative. -/
theorem camelot_wf_nonneg (n1 n2 : ℕ) (m1 m2 : Char)
    (h1 : 1 ≤ n1) (h2 : n1 ≤ 12) (h3 : 1 ≤ n2) (h4 : n2 ≤ 12) :
    0 ≤ camelot_distance (mkCamelotKey n1 m1) (mkCamelotKey n2 m2) := by
  rw [camelot_distance_eq]
  rw [if_neg (by simp [mkCamelotKey_data])]
  rw [parse_mkCamelotKey n1 m1 h1 h2, parse_mkCamelotKey n2 m2 h3 h4]
  have hd1 : (0:ℤ) ≤ |(n1:ℤ) - (n2:ℤ)| := abs_nonneg _
  have hd2 : |(n1:ℤ) - (n2:ℤ)| ≤ 11 := abs_le.mpr ⟨by omega, by omega⟩
  have hmin : (0:ℤ) ≤ min |(n1:ℤ) - (n2:ℤ)| (12 - |(n1:ℤ) - (n2:ℤ)|) :=
    le_min hd1 (by linarith)
  split_ifs
  · norm_num
  · exact hmin
  · norm_num
  · linarith

/-- key_distance on well-formed keys is never negative. -/
theorem key_distance_wf_nonneg (n1 n2 : ℕ) (m1 m2 : Char)
    (h1 : 1 ≤ n1) (h2 : n1 ≤ 12) (h3 : 1 ≤ n2) (h4 : n2 ≤ 12) :
    0 ≤ key_distance (mkCamelotKey n1 m1) (mkCamelotKey n2 m2) := by
  unfold key_distance
  apply div_nonneg _ (by norm_num)
  exact_mod_cast camelot_wf_nonneg n1 n2 m1 m2 h1 h2 h3 h4

/-- SimilarityCalculator::distance is non-negative as soon as the key
dimension contributes nothing negative. -/
theorem distance_nonneg (w : SimilarityWeights) (a b : TrackInfo)
    (hk : 0 ≤ key_distance a.key b.key) : 0 ≤ distance w a b := by
  unfold distance
  dsimp only
  apply div_ite_nonneg
  have t1 := ite_mul_nonneg (w.bpm > 0 ∧ a.bpm > 0 ∧ b.bpm > 0) w.bpm
    (bpm_distance a.bpm b.bpm) (fun h => h.1.le) (bpm_distance_nonneg _ _)
  have t2 := ite_mul_nonneg (w.key > 0 ∧ a.key ≠ "" ∧ b.key ≠ "") w.key
    (key_distance a.key b.key) (fun h => h.1.le) hk
  have t3 := ite_mul_nonneg (w.mfcc > 0 ∧ a.mfcc ≠ [] ∧ b.mfcc ≠ []) w.mfcc
    (mfcc_distance a.mfcc b.mfcc) (fun h => h.1.le) (cosine_distance_nonneg _ _)
  have t4 := ite_mul_nonneg
    (w.energy > 0 ∧ a.energy_curve ≠ [] ∧ b.energy_curve ≠ []) w.energy
    (energy_distance a.energy_curve b.energy_curve) (fun h => h.1.le)
    (energy_distance_nonneg _ _)
  have t5 := ite_mul_nonneg (w.chroma > 0 ∧ a.chroma ≠ [] ∧ b.chroma ≠ []) w.chroma
    (chroma_distance a.chroma b.chroma) (fun h => h.1.le) (cosine_distance_nonneg _ _)
  have t6 := ite_mul_nonneg (w.duration > 0 ∧ a.duration > 0 ∧ b.duration > 0)
    w.duration (duration_distance a.duration b.duration) (fun h => h.1.le)
    (duration_distance_nonneg _ _)
  linarith

/-- SimilarityCalculator::distance of a track with itself vanishes when the
MFCC and chroma norms are nonzero and the energy curve is not essentially
constant. -/
theorem distance_self (w : SimilarityWeights) (a : TrackInfo)
    (hm : (∑ i ∈ Finset.range a.mfcc.length, a.mfcc.getD i 0 * a.mfcc.getD i 0) ≠ 0)
    (hch : (∑ i ∈ Finset.range a.chroma.length, a.chroma.getD i 0 * a.chroma.getD i 0) ≠ 0)
    (hv : energySelfVariance a.energy_curve > 1e-10) :
    distance w a a = 0 := by
  unfold distance
  dsimp only
  rw [ite_mul_eq_zero (w.bpm > 0 ∧ a.bpm > 0 ∧ a.bpm > 0) w.bpm
      (bpm_distance a.bpm a.bpm) (fun hc => bpm_distance_self a.bpm hc.2.1),
    ite_mul_eq_zero (w.key > 0 ∧ a.key ≠ "" ∧ a.key ≠ "") w.key
      (key_distance a.key a.key) (fun _ => key_distance_self a.key),
    ite_mul_eq_zero (w.mfcc > 0 ∧ a.mfcc ≠ [] ∧ a.mfcc ≠ []) w.mfcc
      (mfcc_distance a.mfcc a.mfcc) (fun hc => cosine_distance_self a.mfcc hc.2.1 hm),
    ite_mul_eq_zero (w.energy > 0 ∧ a.energy_curve ≠ [] ∧ a.energy_curve ≠ [])
      w.energy (energy_distance a.energy_curve a.energy_curve)
      (fun _ => energy_distance_self_of_var _ hv),
    ite_mul_eq_zero (w.chroma > 0 ∧ a.chroma ≠ [] ∧ a.chroma ≠ []) w.chroma
      (chroma_distance a.chroma a.chroma) (fun hc => cosine_distance_self a.chroma hc.2.1 hch),
    ite_mul_eq_zero (w.duration > 0 ∧ a.duration > 0 ∧ a.duration > 0) w.duration
      (duration_distance a.duration a.duration)
      (fun hc => duration_distance_self a.duration hc.2.1)]
  simp

/-- similarity of a track with itself is exactly 1 under the same
non-degeneracy conditions. -/
theorem similarity_self_eq_one (w : SimilarityWeights) (a : TrackInfo)
    (hm : (∑ i ∈ Finset.range a.mfcc.length, a.mfcc.getD i 0 * a.mfcc.getD i 0) ≠ 0)
    (hch : (∑ i ∈ Finset.range a.chroma.length, a.chroma.getD i 0 * a.chroma.getD i 0) ≠ 0)
    (hv : energySelfVariance a.energy_curve > 1e-10) :
    similarity w a a = 1 := by
  unfold similarity
  rw [distance_self w a hm hch hv]
  norm_num

/-- similarity stays in [0, 1] whenever the key dimension is non-negative. -/
theorem similarity_bounds (w : SimilarityWeights) (a b : TrackInfo)
    (hk : 0 ≤ key_distance a.key b.key) :
    0 ≤ similarity w a b ∧ similarity w a b ≤ 1 := by
  have hd := distance_nonneg w a b hk
  unfold similarity
  constructor
  · positivity
  · rw [div_le_one (by linarith)]
    linarith

/-- getD on a mapped range. -/
theorem getD_map_range (f : ℕ → ℝ) (n i : ℕ) (hi : i < n) :
    ((List.range n).map f).getD i 0 = f i := by
  simp [List.getD_eq_getElem?_getD, List.getElem?_map, List.getElem?_range, hi]

/-- getD on a replicated list. -/
theorem getD_replicate (n i : ℕ) (x : ℝ) (hi : i < n) :
    (List.replicate n x).getD i 0 = x := by
  simp [List.getD_eq_getElem?_getD, List.getElem?_replicate, hi]

/-- getD stays inside [0, 1] for a list whose members do (the default 0 is
also inside). -/
theorem getD_mem_bounds (l : List ℝ) (h : ∀ x ∈ l, 0 ≤ x ∧ x ≤ 1) (i : ℕ) :
    0 ≤ l.getD i 0 ∧ l.getD i 0 ≤ 1 := by
  by_cases hi : i < l.length
  · rw [List.getD_eq_getElem l 0 hi]
    exact h _ (List.getElem_mem hi)
  · rw [List.getD_eq_default l 0 (le_of_not_lt hi)]
    norm_num

/-- A convex combination of two points of [0, 1] stays in [0, 1]. -/
theorem convex_unit_bound (a b f : ℝ) (ha1 : 0 ≤ a) (ha2 : a ≤ 1)
    (hb1 : 0 ≤ b) (hb2 : b ≤ 1) (hf1 : 0 ≤ f) (hf2 : f ≤ 1) :
    0 ≤ a * (1 - f) + b * f ∧ a * (1 - f) + b * f ≤ 1 := by
  constructor
  · have h1 : 0 ≤ a * (1 - f) := mul_nonneg ha1 (by linarith)
    have h2 : 0 ≤ b * f := mul_nonneg hb1 hf1
    linarith
  · calc a * (1 - f) + b * f ≤ 1 * (1 - f) + 1 * f :=
        add_le_add (mul_le_mul_of_nonneg_right ha2 (by linarith))
          (mul_le_mul_of_nonneg_right hb2 hf1)
    _ = 1 := by ring

/-- The linear resampling keeps values inside [0, 1] when the curve's are. -/
theorem resample_getD_mem (curve : List ℝ) (hc : ∀ x ∈ curve, 0 ≤ x ∧ x ≤ 1)
    (len i : ℕ) (hi : i < len) :
    0 ≤ (resample curve len).getD i 0 ∧ (resample curve len).getD i 0 ≤ 1 := by
  unfold resample
  dsimp only
  split_ifs with hl he
  · rw [getD_replicate len i 0 hi]
    norm_num
  · rw [getD_replicate len i _ hi]
    exact getD_mem_bounds curve hc 0
  · rw [getD_map_range _ len i hi]
    have hlen2 : 2 ≤ curve.length := by omega
    have hsrc : 0 ≤ (i:ℝ) * ((curve.length : ℝ) - 1) / ((len : ℝ) - 1) := by
      apply div_nonneg
      · apply mul_nonneg (Nat.cast_nonneg i)
        have h2 : (2:ℝ) ≤ (curve.length : ℝ) := by exact_mod_cast hlen2
        linarith
      · have hL : (1:ℝ) ≤ (len : ℝ) := by exact_mod_cast (by omega : 1 ≤ len)
        linarith
    have hfl : (0:ℤ) ≤ ⌊(i:ℝ) * ((curve.length : ℝ) - 1) / ((len : ℝ) - 1)⌋ :=
      Int.floor_nonneg.mpr hsrc
    have hcast : ((⌊(i:ℝ) * ((curve.length : ℝ) - 1) / ((len : ℝ) - 1)⌋.toNat : ℕ) : ℝ)
        = ((⌊(i:ℝ) * ((curve.length : ℝ) - 1) / ((len : ℝ) - 1)⌋ : ℤ) : ℝ) := by
      exact_mod_cast Int.toNat_of_nonneg hfl
    have hfrac1 : 0 ≤ (i:ℝ) * ((curve.length : ℝ) - 1) / ((len : ℝ) - 1)
        - ((⌊(i:ℝ) * ((curve.length : ℝ) - 1) / ((len : ℝ) - 1)⌋.toNat : ℕ) : ℝ) := by
      rw [hcast]
      exact sub_nonneg.mpr (Int.floor_le _)
    have hfrac2 : (i:ℝ) * ((curve.length : ℝ) - 1) / ((len : ℝ) - 1)
        - ((⌊(i:ℝ) * ((curve.length : ℝ) - 1) / ((len : ℝ) - 1)⌋.toNat : ℕ) : ℝ) ≤ 1 := by
      rw [hcast]
      have := Int.lt_floor_add_one ((i:ℝ) * ((curve.length : ℝ) - 1) / ((len : ℝ) - 1))
      linarith
    have ha := getD_mem_bounds curve hc
      (⌊(i:ℝ) * ((curve.length : ℝ) - 1) / ((len : ℝ) - 1)⌋.toNat)
    have hb := getD_mem_bounds curve hc
      (min (⌊(i:ℝ) * ((curve.length : ℝ) - 1) / ((len : ℝ) - 1)⌋.toNat + 1)
        (curve.length - 1))
    exact convex_unit_bound _ _ _ ha.1 ha.2 hb.1 hb.2 hfrac1 hfrac2

/-- C6 amended: for a track satisfying the record invariants whose MFCC
norm is nonzero and whose resampled energy curve is not essentially
constant, similarity(a, a) is exactly 1 (so certainly within 1e-4); and
for any two tracks satisfying the record invariants, similarity lies in
[0, 1]. -/
theorem similarity_self_one_and_range (w : SimilarityWeights) (a b c : TrackInfo)
    (ha : TrackRecordInvariants a)
    (hm : (∑ i ∈ Finset.range a.mfcc.length, a.mfcc.getD i 0 * a.mfcc.getD i 0) ≠ 0)
    (hv : energySelfVariance a.energy_curve > 1e-10)
    (hb : TrackRecordInvariants b) (hc : TrackRecordInvariants c) :
    (similarity w a a = 1 ∧ |similarity w a a - 1| ≤ 1e-4)
    ∧ (0 ≤ similarity w b c ∧ similarity w b c ≤ 1) := by
  obtain ⟨-, -, -, -, -, hcnn, hcsum, -, -, -⟩ := ha
  have hch := sum_sq_ne_zero_of_sum_one a.chroma hcnn hcsum
  have h1 := similarity_self_eq_one w a hm hch hv
  refine ⟨⟨h1, by rw [h1]; norm_num⟩, ?_⟩
  obtain ⟨-, -, ⟨nb, mb, hnb1, hnb2, -, hkb⟩, -⟩ := hb
  obtain ⟨-, -, ⟨nc, mc, hnc1, hnc2, -, hkc⟩, -⟩ := hc
  have hk : 0 ≤ key_distance b.key c.key := by
    rw [hkb, hkc]
    exact key_distance_wf_nonneg nb nc mb mc hnb1 hnb2 hnc1 hnc2
  exact similarity_bounds w b c hk

/-- The squared norm of the concrete MFCC vector is 1. -/
theorem mfcc13_norm :
    (∑ i ∈ Finset.range mfcc13.length, mfcc13.getD i 0 * mfcc13.getD i 0) = 1 := by
  simp [mfcc13, Finset.sum_range_succ, List.getD_cons_zero, List.getD_cons_succ]

/-- The squared norm of the concrete chroma vector is 1. -/
theorem chroma12_norm :
    (∑ i ∈ Finset.range chroma12.length, chroma12.getD i 0 * chroma12.getD i 0) = 1 := by
  simp [chroma12, Finset.sum_range_succ, List.getD_cons_zero, List.getD_cons_succ]

/-- MFCC self-distance of the concrete vector is 0. -/
theorem mfcc13_cosine_self : mfcc_distance mfcc13 mfcc13 = 0 :=
  cosine_distance_self mfcc13 (by simp [mfcc13]) (by rw [mfcc13_norm]; norm_num)

/-- chroma self-distance of the concrete vector is 0. -/
theorem chroma12_cosine_self : chroma_distance chroma12 chroma12 = 0 :=
  cosine_distance_self chroma12 (by simp [chroma12]) (by rw [chroma12_norm]; norm_num)

/-- Resampling the singleton curve yields the constant curve. -/
theorem resample_single : resample [0.6] 100 = List.replicate 100 (0.6:ℝ) := by
  unfold resample
  rw [if_pos (by simp)]
  norm_num

/-- On the singleton energy curve the self-distance is 0.3: the constant
resampled curve has zero variance, the correlation guard trips, and the
global Pearson term contributes 0.6 · 0.5. -/
theorem energy_distance_cex : energy_distance [0.6] [0.6] = 0.3 := by
  have hsum : (∑ i ∈ Finset.range 100, (List.replicate 100 (0.6:ℝ)).getD i 0) = 60 := by
    rw [Finset.sum_congr rfl fun i hi => getD_replicate 100 i 0.6 (Finset.mem_range.mp hi)]
    rw [Finset.sum_const, Finset.card_range, nsmul_eq_mul]
    norm_num
  have hzero : (∑ i ∈ Finset.range 100,
      ((List.replicate 100 (0.6:ℝ)).getD i 0 - 60 / ((100:ℕ):ℝ))
      * ((List.replicate 100 (0.6:ℝ)).getD i 0 - 60 / ((100:ℕ):ℝ))) = 0 := by
    refine Finset.sum_eq_zero fun i hi => ?_
    rw [getD_replicate 100 i 0.6 (Finset.mem_range.mp hi)]
    norm_num
  unfold energy_distance
  dsimp only
  rw [if_neg (by simp)]
  rw [resample_single, hsum]
  simp only [hzero]
  rw [mul_zero, Real.sqrt_zero, if_neg (by norm_num), segment_energy_distance_self]
  norm_num

/-- Full similarity distance of cexTrack with itself under default weights:
only the energy dimension contributes, giving 0.3·0.3 over total weight
3.4. -/
theorem distance_cex : distance SimilarityWeights.defaults cexTrack cexTrack = 9 / 340 := by
  have c1 : (1:ℝ) > 0 ∧ (128:ℝ) > 0 ∧ (128:ℝ) > 0 := by norm_num
  have c2 : (1:ℝ) > 0 ∧ ("8A":String) ≠ "" ∧ ("8A":String) ≠ "" :=
    ⟨by norm_num, by decide, by decide⟩
  have c3 : (0.5:ℝ) > 0 ∧ mfcc13 ≠ [] ∧ mfcc13 ≠ [] :=
    ⟨by norm_num, by simp [mfcc13], by simp [mfcc13]⟩
  have c4 : (0.3:ℝ) > 0 ∧ ([0.6]:List ℝ) ≠ [] ∧ ([0.6]:List ℝ) ≠ [] :=
    ⟨by norm_num, by simp, by simp⟩
  have c5 : (0.4:ℝ) > 0 ∧ chroma12 ≠ [] ∧ chroma12 ≠ [] :=
    ⟨by norm_num, by simp [chroma12], by simp [chroma12]⟩
  have c6 : (0.2:ℝ) > 0 ∧ (120:ℝ) > 0 ∧ (120:ℝ) > 0 := by norm_num
  unfold distance
  dsimp only
  simp only [cexTrack, SimilarityWeights.defaults]
  simp only [if_pos c1, if_pos c2, if_pos c3, if_pos c4, if_pos c5, if_pos c6]
  rw [bpm_distance_self 128 (by norm_num), key_distance_self,
    mfcc13_cosine_self, energy_distance_cex, chroma12_cosine_self,
    duration_distance_self 120 (by norm_num)]
  rw [if_pos (by norm_num : ((1:ℝ) + 1 + 0.5 + 0.3 + 0.4 + 0.2) > 0)]
  norm_num

/-- C6 counterexample: cexTrack satisfies every track-record invariant and
has usable feature dimensions, yet its self-similarity under the default
weights is 340/349, farther than 1e-4 from 1; and for the unrestricted
range part, a pair of tracks whose key wheel numbers leave 1..12 drives the
Camelot wheel distance negative and similarity below 0. -/
theorem similarity_self_below_one :
    ((TrackRecordInvariants cexTrack
      ∧ SimilarityWeights.defaults.bpm > 0 ∧ cexTrack.bpm > 0)
    ∧ ¬ |similarity SimilarityWeights.defaults cexTrack cexTrack - 1| ≤ 1e-4)
    ∧ similarity SimilarityWeights.defaults badKeyTrack1 badKeyTrack2 < 0 := by
  refine ⟨⟨⟨?_, by norm_num [SimilarityWeights.defaults], by norm_num [cexTrack]⟩, ?_⟩, ?_⟩
  · refine ⟨by norm_num [cexTrack], ?_, ⟨8, 'A', by norm_num, by norm_num, Or.inl rfl, ?_⟩,
      ?_, ?_, ?_, ?_, ?_, ?_, by norm_num [cexTrack]⟩
    · simp only [cexTrack]
      simp [List.chain'_cons]
      norm_num
    · simp only [cexTrack]
      decide
    · simp [cexTrack, mfcc13]
    · simp [cexTrack, chroma12]
    · intro x hx
      simp [cexTrack, chroma12] at hx
      rcases hx with rfl | rfl <;> norm_num
    · simp [cexTrack, chroma12]
    · simp [cexTrack]
    · intro x hx
      simp [cexTrack] at hx
      rw [hx]
      norm_num
  · have hs : similarity SimilarityWeights.defaults cexTrack cexTrack = 340 / 349 := by
      unfold similarity
      rw [distance_cex]
      norm_num
    rw [hs]
    rw [show |(340:ℝ) / 349 - 1| = 9 / 349 by rw [abs_of_nonpos] <;> norm_num]
    norm_num
  · have hkd : key_distance "99A" "1A" = -86 / 6 := by
      unfold key_distance
      rw [show camelot_distance "99A" "1A" = -86 by decide]
      norm_num
    have cb : ¬((1:ℝ) > 0 ∧ (0:ℝ) > 0 ∧ (0:ℝ) > 0) := by norm_num
    have ck : (1:ℝ) > 0 ∧ ("99A":String) ≠ "" ∧ ("1A":String) ≠ "" :=
      ⟨by norm_num, by decide, by decide⟩
    have cm : ¬((0.5:ℝ) > 0 ∧ ([]:List ℝ) ≠ [] ∧ ([]:List ℝ) ≠ []) := by simp
    have ce : ¬((0.3:ℝ) > 0 ∧ ([]:List ℝ) ≠ [] ∧ ([]:List ℝ) ≠ []) := by simp
    have cc : ¬((0.4:ℝ) > 0 ∧ ([]:List ℝ) ≠ [] ∧ ([]:List ℝ) ≠ []) := by simp
    have cd : ¬((0.2:ℝ) > 0 ∧ (0:ℝ) > 0 ∧ (0:ℝ) > 0) := by norm_num
    have hdist : distance SimilarityWeights.defaults badKeyTrack1 badKeyTrack2
        = -86 / 6 := by
      unfold distance
      dsimp only
      simp only [badKeyTrack1, badKeyTrack2, SimilarityWeights.defaults]
      simp only [if_neg cb, if_pos ck, if_neg cm, if_neg ce, if_neg cc, if_neg cd]
      rw [if_pos (show ((0:ℝ) + 1 + 0 + 0 + 0 + 0) > 0 by norm_num)]
      rw [hkd]
      norm_num
    unfold similarity
    rw [hdist]
    norm_num

/-- wTrack satisfies the track-record invariants. -/
theorem wTrack_invariants : TrackRecordInvariants wTrack := by
  refine ⟨by norm_num [wTrack], ?_, ⟨9, 'A', by norm_num, by norm_num, Or.inl rfl, ?_⟩,
    ?_, ?_, ?_, ?_, ?_, ?_, by norm_num [wTrack]⟩
  · simp only [wTrack]
    simp [List.chain'_cons]
    norm_num
  · simp only [wTrack]
    decide
  · simp [wTrack, mfcc13]
  · simp [wTrack, chroma12]
  · intro x hx
    simp [wTrack, chroma12] at hx
    rcases hx with rfl | rfl <;> norm_num
  · simp [wTrack, chroma12]
  · simp [wTrack]
  · intro x hx
    simp [wTrack] at hx
    rcases hx with rfl | rfl <;> norm_num

/-- The last resampled point of the curve [0, 1] is 1. -/
theorem resample01_last : (resample [0, 1] 100).getD 99 0 = 1 := by
  unfold resample
  rw [if_neg (by simp)]
  rw [getD_map_range _ 100 99 (by norm_num)]
  norm_num [List.getD_cons_zero, List.getD_cons_succ]

/-- The first resampled point of the curve [0, 1] is 0. -/
theorem resample01_first : (resample [0, 1] 100).getD 0 0 = 0 := by
  unfold resample
  rw [if_neg (by simp)]
  rw [getD_map_range _ 100 0 (by norm_num)]
  norm_num [List.getD_cons_zero, List.getD_cons_succ]

/-- The resampled [0, 1] curve clears the 1e-10 variance guard. -/
theorem energy_var_01 : energySelfVariance [0, 1] > 1e-10 := by
  have hmem : ∀ x ∈ ([0, 1] : List ℝ), 0 ≤ x ∧ x ≤ 1 := by
    intro x hx
    simp at hx
    rcases hx with rfl | rfl <;> norm_num
  have hb : ∀ i ∈ Finset.range 100, 0 ≤ (resample [0, 1] 100).getD i 0 :=
    fun i hi => (resample_getD_mem [0, 1] hmem 100 i (Finset.mem_range.mp hi)).1
  unfold energySelfVariance
  dsimp only
  have hS1 : 1 ≤ ∑ i ∈ Finset.range 100, (resample [0, 1] 100).getD i 0 := by
    calc (1:ℝ) = (resample [0, 1] 100).getD 99 0 := resample01_last.symm
    _ ≤ ∑ i ∈ Finset.range 100, (resample [0, 1] 100).getD i 0 :=
        Finset.single_le_sum hb (Finset.mem_range.mpr (by norm_num : (99:ℕ) < 100))
  have hm : (1:ℝ)/100 ≤ (∑ i ∈ Finset.range 100, (resample [0, 1] 100).getD i 0)
      / ((100:ℕ):ℝ) := by
    have h100 : ((100:ℕ):ℝ) = 100 := by norm_num
    rw [h100]
    linarith
  have hterm : (1:ℝ)/100 * (1/100) ≤
      ((resample [0, 1] 100).getD 0 0
        - (∑ i ∈ Finset.range 100, (resample [0, 1] 100).getD i 0) / ((100:ℕ):ℝ))
      * ((resample [0, 1] 100).getD 0 0
        - (∑ i ∈ Finset.range 100, (resample [0, 1] 100).getD i 0) / ((100:ℕ):ℝ)) := by
    rw [resample01_first]
    nlinarith [hm]
  have hsum : ((resample [0, 1] 100).getD 0 0
        - (∑ i ∈ Finset.range 100, (resample [0, 1] 100).getD i 0) / ((100:ℕ):ℝ))
      * ((resample [0, 1] 100).getD 0 0
        - (∑ i ∈ Finset.range 100, (resample [0, 1] 100).getD i 0) / ((100:ℕ):ℝ))
      ≤ ∑ i ∈ Finset.range 100,
        ((resample [0, 1] 100).getD i 0
          - (∑ j ∈ Finset.range 100, (resample [0, 1] 100).getD j 0) / ((100:ℕ):ℝ))
        * ((resample [0, 1] 100).getD i 0
          - (∑ j ∈ Finset.range 100, (resample [0, 1] 100).getD j 0) / ((100:ℕ):ℝ)) :=
    @Finset.single_le_sum ℕ ℝ _
      (fun i => ((resample [0, 1] 100).getD i 0
          - (∑ j ∈ Finset.range 100, (resample [0, 1] 100).getD j 0) / ((100:ℕ):ℝ))
        * ((resample [0, 1] 100).getD i 0
          - (∑ j ∈ Finset.range 100, (resample [0, 1] 100).getD j 0) / ((100:ℕ):ℝ)))
      (Finset.range 100) (fun i _ => mul_self_nonneg _) 0
      (Finset.mem_range.mpr (by norm_num : (0:ℕ) < 100))
  nlinarith [hterm, hsum]

/-- Witness for the amended C6 on the concrete track wTrack. -/
theorem similarity_self_one_and_range_witness :
    (similarity SimilarityWeights.defaults wTrack wTrack = 1
      ∧ |similarity SimilarityWeights.defaults wTrack wTrack - 1| ≤ 1e-4)
    ∧ (0 ≤ similarity SimilarityWeights.defaults wTrack wTrack
      ∧ similarity SimilarityWeights.defaults wTrack wTrack ≤ 1) :=
  similarity_self_one_and_range SimilarityWeights.defaults wTrack wTrack wTrack
    wTrack_invariants
    (by simp only [wTrack]; rw [mfcc13_norm]; norm_num)
    (by simp only [wTrack]; exact energy_var_01)
    wTrack_invariants wTrack_invariants

/-! ### Playlist generator invariants -/

/-- create_plan stamps the two track ids into the plan. -/
theorem create_plan_ids (a b : TrackInfo) (config : TransitionConfig) :
    (create_plan a b config).from_track_id = a.id
    ∧ (create_plan a b config).to_track_id = b.id := by
  constructor <;> simp only [create_plan]

/-- Updating the last transition never changes the sequence of track ids. -/
theorem setHeadTransition_ids (l : List PlaylistEntry) (p : TransitionPlan) :
    (setHeadTransition l p).map PlaylistEntry.track_id
      = l.map PlaylistEntry.track_id := by
  cases l <;> rfl

/-- Whatever select_next picks comes from the available pool. -/
theorem select_next_mem {σ : Type} (R : RNGModel σ) (w : SimilarityWeights)
    (cur : TrackInfo) (avail : List TrackInfo) (rules : PlaylistRules)
    (progress : ℝ) (recent : List TrackInfo) (tc : ℤ) (s : σ)
    (t : TrackInfo) (s2 : σ)
    (h : select_next R w cur avail rules progress recent tc s = (some t, s2)) :
    t ∈ avail := by
  unfold select_next at h
  split_ifs at h with h1 h2
  · simp at h
  · simp at h
  · simp only [Prod.mk.injEq, Option.some.injEq] at h
    obtain ⟨rfl, -⟩ := h
    have hlen : (scoredSorted w cur rules progress recent tc
        (compatibleFilter cur avail rules)).length
        = (compatibleFilter cur avail rules).length := by
      unfold scoredSorted
      rw [List.length_mergeSort, List.length_map]
    have hpos : 0 < (compatibleFilter cur avail rules).length :=
      List.length_pos.mpr h2
    have h5 : 1 ≤ min 5 (scoredSorted w cur rules progress recent tc
        (compatibleFilter cur avail rules)).length := by
      rw [hlen]
      exact le_min (by norm_num) hpos
    have hlt : min (R.draw s (min 5 (scoredSorted w cur rules progress recent tc
          (compatibleFilter cur avail rules)).length)).1
        (min 5 (scoredSorted w cur rules progress recent tc
          (compatibleFilter cur avail rules)).length - 1)
        < (scoredSorted w cur rules progress recent tc
          (compatibleFilter cur avail rules)).length := by
      have ha := Nat.sub_lt (lt_of_lt_of_le Nat.one_pos h5) Nat.one_pos
      have hb := min_le_right 5 (scoredSorted w cur rules progress recent tc
        (compatibleFilter cur avail rules)).length
      exact lt_of_le_of_lt (min_le_right _ _) (lt_of_lt_of_le ha hb)
    have hmem : (scoredSorted w cur rules progress recent tc
          (compatibleFilter cur avail rules)).getD
        (min (R.draw s (min 5 (scoredSorted w cur rules progress recent tc
          (compatibleFilter cur avail rules)).length)).1
          (min 5 (scoredSorted w cur rules progress recent tc
            (compatibleFilter cur avail rules)).length - 1)) default
        ∈ scoredSorted w cur rules progress recent tc
          (compatibleFilter cur avail rules) := by
      rw [List.getD_eq_getElem _ _ hlt]
      exact List.getElem_mem hlt
    have hmem2 : (scoredSorted w cur rules progress recent tc
          (compatibleFilter cur avail rules)).getD
        (min (R.draw s (min 5 (scoredSorted w cur rules progress recent tc
          (compatibleFilter cur avail rules)).length)).1
          (min 5 (scoredSorted w cur rules progress recent tc
            (compatibleFilter cur avail rules)).length - 1)) default
        ∈ (compatibleFilter cur avail rules).map fun candidate =>
          (candidate, score_candidate w cur candidate rules progress recent tc) := by
      unfold scoredSorted at hmem
      exact List.mem_mergeSort.mp hmem
    obtain ⟨c, hc, hceq⟩ := List.mem_map.mp hmem2
    rw [← hceq]
    exact (List.mem_filter.mp hc).1

/-- Whatever the retried selection picks comes from the available pool. -/
theorem selectWithRetry_mem {σ : Type} (R : RNGModel σ) (w : SimilarityWeights)
    (cur : TrackInfo) (avail : List TrackInfo) (rules : PlaylistRules)
    (progress : ℝ) (recent : List TrackInfo) (tc : ℤ) (s : σ)
    (t : TrackInfo) (s2 : σ)
    (h : selectWithRetry R w cur avail rules progress recent tc s = (some t, s2)) :
    t ∈ avail := by
  unfold selectWithRetry at h
  rcases hs : select_next R w cur avail rules progress recent tc s with ⟨o1, s1⟩
  rw [hs] at h
  cases o1 with
  | some u =>
      simp only [Prod.mk.injEq, Option.some.injEq] at h
      obtain ⟨rfl, -⟩ := h
      exact select_next_mem R w cur avail rules progress recent tc s u s1 hs
  | none =>
      exact select_next_mem R w cur avail (relaxRules rules) progress recent tc s1 t s2 h

/-- Appending a fresh head and rewriting the old head's transition keeps
the id of the playlist's first (oldest) entry. -/
theorem getLast_id_cons_setHead (x e : PlaylistEntry) (rest : List PlaylistEntry)
    (p : TransitionPlan) :
    (x :: setHeadTransition (e :: rest) p).getLast?.map PlaylistEntry.track_id
      = ((e :: rest).getLast?.map PlaylistEntry.track_id) := by
  cases rest with
  | nil => rfl
  | cons r rest2 =>
      show ((x :: { e with transition_to_next := some p } :: r :: rest2).getLast?).map
        PlaylistEntry.track_id = _
      rw [List.getLast?_cons_cons, List.getLast?_cons_cons, List.getLast?_cons_cons]

/-- Master invariant of the generate loop: starting from a non-empty
reversed entry list whose newest entry is transition-free and carries the
current track's id, whose links are well formed, whose ids are distinct,
and whose available pool avoids every already-used id, the loop's output is
non-empty, its newest entry is transition-free, its links stay well formed,
its ids stay distinct, and its oldest entry's id is preserved. -/
theorem genLoop_wf {σ : Type} (R : RNGModel σ) (w : SimilarityWeights)
    (rules : PlaylistRules) (config : TransitionConfig) (count : ℤ) :
    ∀ (fuel : ℕ) (rev : List PlaylistEntry) (used : List ℤ)
      (avail : List TrackInfo) (cur : TrackInfo) (recent : List TrackInfo) (s : σ),
      rev ≠ [] →
      (∀ e, rev.head? = some e →
        e.transition_to_next = none ∧ e.track_id = cur.id) →
      List.Chain' (flip entryLinked) rev →
      (rev.map PlaylistEntry.track_id).Nodup →
      (∀ t ∈ avail, t.id ∉ rev.map PlaylistEntry.track_id) →
      genLoop R w rules config count fuel rev used avail cur recent s ≠ []
      ∧ (∀ e, (genLoop R w rules config count fuel rev used avail cur recent s).head?
          = some e → e.transition_to_next = none)
      ∧ List.Chain' (flip entryLinked)
          (genLoop R w rules config count fuel rev used avail cur recent s)
      ∧ ((genLoop R w rules config count fuel rev used avail cur recent s).map
          PlaylistEntry.track_id).Nodup
      ∧ (genLoop R w rules config count fuel rev used avail cur recent s).getLast?.map
          PlaylistEntry.track_id = rev.getLast?.map PlaylistEntry.track_id := by
  intro fuel
  induction fuel with
  | zero =>
      intro rev used avail cur recent s hne hhead hchain hnodup havail
      exact ⟨hne, fun e he => (hhead e he).1, hchain, hnodup, rfl⟩
  | succ n ih =>
      intro rev used avail cur recent s hne hhead hchain hnodup havail
      simp only [genLoop]
      split_ifs with hg
      · rcases hsel : selectWithRetry R w cur avail rules
            ((rev.length : ℝ) / (count : ℝ)) recent count s with ⟨onext, s2⟩
        cases onext with
        | none =>
            exact ⟨hne, fun e he => (hhead e he).1, hchain, hnodup, rfl⟩
        | some next =>
            obtain ⟨e, rest, rfl⟩ : ∃ e rest, rev = e :: rest := by
              cases rev with
              | nil => exact absurd rfl hne
              | cons e rest => exact ⟨e, rest, rfl⟩
            have hmem : next ∈ avail :=
              selectWithRetry_mem R w cur avail rules _ recent count s next s2 hsel
            have hid : e.track_id = cur.id := (hhead e rfl).2
            have hnid : next.id ∉ (e :: rest).map PlaylistEntry.track_id :=
              havail next hmem
            have hchain1 : List.Chain' (flip entryLinked)
                ({ track_id := next.id, transition_to_next := none } ::
                  setHeadTransition (e :: rest) (create_plan cur next config)) := by
              show List.Chain' (flip entryLinked)
                ({ track_id := next.id, transition_to_next := none } ::
                  { e with transition_to_next := some (create_plan cur next config) } :: rest)
              rw [List.chain'_cons]
              constructor
              · refine ⟨create_plan cur next config, rfl, ?_, ?_⟩
                · rw [(create_plan_ids cur next config).1]
                  exact hid.symm
                · exact (create_plan_ids cur next config).2
              · cases rest with
                | nil => exact List.chain'_singleton _
                | cons r rest2 =>
                    rw [List.chain'_cons] at hchain ⊢
                    obtain ⟨p, hp1, hp2, hp3⟩ := hchain.1
                    exact ⟨⟨p, hp1, hp2, hp3⟩, hchain.2⟩
            have hnodup1 : (({ track_id := next.id, transition_to_next := none } ::
                setHeadTransition (e :: rest) (create_plan cur next config)).map
                  PlaylistEntry.track_id).Nodup := by
              rw [List.map_cons, setHeadTransition_ids]
              exact List.nodup_cons.mpr ⟨hnid, hnodup⟩
            have havail1 : ∀ t ∈ avail.filter fun t =>
                decide (t.id ∉ next.id :: used),
                t.id ∉ ({ track_id := next.id, transition_to_next := none } ::
                  setHeadTransition (e :: rest) (create_plan cur next config)).map
                    PlaylistEntry.track_id := by
              intro t ht
              obtain ⟨htm, htp⟩ := List.mem_filter.mp ht
              have htid : t.id ∉ next.id :: used := of_decide_eq_true htp
              rw [List.map_cons, setHeadTransition_ids]
              intro hmem2
              rcases List.mem_cons.mp hmem2 with heq | hmem3
              · exact htid (heq ▸ List.mem_cons_self _ _)
              · exact havail t htm hmem3
            have hstep := ih
              ({ track_id := next.id, transition_to_next := none } ::
                setHeadTransition (e :: rest) (create_plan cur next config))
              (next.id :: used)
              (avail.filter fun t => decide (t.id ∉ next.id :: used))
              next
              (if (recent ++ [next]).length > 5 then (recent ++ [next]).tail
               else recent ++ [next])
              s2
              (List.cons_ne_nil _ _)
              (by
                intro e' he'
                simp only [List.head?_cons, Option.some.injEq] at he'
                subst he'
                exact ⟨rfl, rfl⟩)
              hchain1 hnodup1 havail1
            refine ⟨hstep.1, hstep.2.1, hstep.2.2.1, hstep.2.2.2.1, ?_⟩
            rw [hstep.2.2.2.2]
            exact getLast_id_cons_setHead _ e rest _
      · exact ⟨hne, fun e he => (hhead e he).1, hchain, hnodup, rfl⟩

/-- C1: every generated playlist is structurally well formed — non-empty,
with pairwise-distinct track ids, every non-last entry linked to its
successor by a transition stamped with both ids, and no transition on the
last entry; for every RNG behaviour, seed, pool, count, rules and config. -/
theorem generate_playlist_wellformed {σ : Type} (R : RNGModel σ) (rng : σ)
    (seed : TrackInfo) (candidates : List TrackInfo) (count : ℤ)
    (rules : PlaylistRules) (config : TransitionConfig) :
    (generate R rng seed candidates count rules config).entries ≠ []
    ∧ ((generate R rng seed candidates count rules config).entries.map
        PlaylistEntry.track_id).Nodup
    ∧ List.Chain' entryLinked
        (generate R rng seed candidates count rules config).entries
    ∧ (∀ e, (generate R rng seed candidates count rules config).entries.getLast?
        = some e → e.transition_to_next = none) := by
  have h := genLoop_wf R rules.weights rules config count count.toNat
    [{ track_id := seed.id }] [seed.id]
    (candidates.filter fun t => decide (t.id ≠ seed.id)) seed [seed]
    (if rules.random_seed ≠ 0 then R.seed rules.random_seed else rng)
    (List.cons_ne_nil _ _)
    (by
      intro e he
      simp only [List.head?_cons, Option.some.injEq] at he
      subst he
      exact ⟨rfl, rfl⟩)
    (List.chain'_singleton _)
    (by simp)
    (by
      intro t ht
      have htp : t.id ≠ seed.id := of_decide_eq_true (List.mem_filter.mp ht).2
      simp [htp])
  unfold generate
  dsimp only
  refine ⟨?_, ?_, ?_, ?_⟩
  · simp only [ne_eq, List.reverse_eq_nil_iff]
    exact h.1
  · rw [List.map_reverse, List.nodup_reverse]
    exact h.2.2.2.1
  · rw [List.chain'_reverse]
    exact h.2.2.1
  · intro e he
    rw [List.getLast?_reverse] at he
    exact h.2.1 e he

/-- C2: with a non-zero random_seed the generator reseeds its engine, so
two runs from arbitrary engine states give playlists of the same length
with identical ordered track ids, and the first entry always carries the
seed track's id. -/
theorem generate_deterministic {σ : Type} (R : RNGModel σ) (rng1 rng2 : σ)
    (seed : TrackInfo) (candidates : List TrackInfo) (count : ℤ)
    (rules : PlaylistRules) (config : TransitionConfig)
    (h : rules.random_seed ≠ 0) :
    (generate R rng1 seed candidates count rules config).entries.length
      = (generate R rng2 seed candidates count rules config).entries.length
    ∧ (generate R rng1 seed candidates count rules config).entries.map
        PlaylistEntry.track_id
      = (generate R rng2 seed candidates count rules config).entries.map
        PlaylistEntry.track_id
    ∧ (∀ e, (generate R rng1 seed candidates count rules config).entries.head?
        = some e → e.track_id = seed.id) := by
  have heq : generate R rng1 seed candidates count rules config
      = generate R rng2 seed candidates count rules config := by
    unfold generate
    dsimp only
    rw [if_pos h, if_pos h]
  refine ⟨by rw [heq], by rw [heq], ?_⟩
  intro e he
  have hwf := genLoop_wf R rules.weights rules config count count.toNat
    [{ track_id := seed.id }] [seed.id]
    (candidates.filter fun t => decide (t.id ≠ seed.id)) seed [seed]
    (if rules.random_seed ≠ 0 then R.seed rules.random_seed else rng1)
    (List.cons_ne_nil _ _)
    (by
      intro e' he'
      simp only [List.head?_cons, Option.some.injEq] at he'
      subst he'
      exact ⟨rfl, rfl⟩)
    (List.chain'_singleton _)
    (by simp)
    (by
      intro t ht
      have htp : t.id ≠ seed.id := of_decide_eq_true (List.mem_filter.mp ht).2
      simp [htp])
  have hlast := hwf.2.2.2.2
  unfold generate at he
  dsimp only at he
  rw [List.head?_reverse] at he
  rw [he] at hlast
  simpa using hlast

/-- Witness for C2 with a concrete RNG model, seed track and rules. -/
theorem generate_deterministic_witness :
    (generate natRNG 0 { id := 1 } [] 3 { random_seed := 12345 } {}).entries.length
      = (generate natRNG 1 { id := 1 } [] 3 { random_seed := 12345 } {}).entries.length
    ∧ (generate natRNG 0 { id := 1 } [] 3 { random_seed := 12345 } {}).entries.map
        PlaylistEntry.track_id
      = (generate natRNG 1 { id := 1 } [] 3 { random_seed := 12345 } {}).entries.map
        PlaylistEntry.track_id
    ∧ (∀ e, (generate natRNG 0 { id := 1 } [] 3
        { random_seed := 12345 } {}).entries.head? = some e
        → e.track_id = ({ id := 1 } : TrackInfo).id) :=
  generate_deterministic natRNG 0 1 { id := 1 } [] 3 { random_seed := 12345 } {}
    (by decide)

end AutoMix
